import Mathlib

/-!
# ShopSaarthi retail — shallow embedding and verification

A shallow embedding of the billing / inventory core of the ShopSaarthi
retail application (`src/models.py`, `src/app.py`) and proofs about it.

Modelling conventions:
* SQLAlchemy rows become Lean structures; the database is a `DB` record of
  row lists, ordered by insertion (which models both primary-key order and
  ascending `created_at`).
* Python `float` money fields are modelled by `Rat`; every claim proved
  here is an exact assignment identity in the source (e.g. `total_amount =
  subtotal + tax_amount - discount_amount` is literally assigned), so the
  identities are representation-independent.
* Stock counters are `Int` (Python ints).
* Each HTTP handler becomes a function `DB → args → Result × DB`.  A
  handler that returns early without `db.session.commit()` has its pending
  session mutations rolled back when Flask-SQLAlchemy tears the scoped
  session down at the end of the request, so every error path threads the
  original `DB` through unchanged; only an explicit commit publishes the
  session's working state as the new `DB`.
-/

namespace ShopSaarthi

/-- `products` table (`src/models.py`, class `Product`).  Fields not used by
any verified operation are omitted. -/
structure Product where
  id : Nat
  userId : Nat
  barcode : String
  name : String
  purchasePrice : Rat
  sellingPrice : Rat
  currentStock : Int
  deriving Repr, DecidableEq

/-- `stock_movements` table (`src/models.py`, class `StockMovement`). -/
structure StockMovement where
  productId : Nat
  userId : Nat
  movementType : String
  quantity : Int
  previousStock : Int
  newStock : Int
  price : Rat
  referenceType : String
  referenceId : Option String
  reason : String
  deriving Repr, DecidableEq

/-- `bills` table (`src/models.py`, class `Bill`). -/
structure Bill where
  id : Nat
  billNumber : String
  status : String
  subtotal : Rat
  taxAmount : Rat
  discountAmount : Rat
  totalAmount : Rat
  amountPaid : Rat
  paymentMethod : Option String
  userId : Nat
  deriving Repr, DecidableEq

/-- `bill_items` table (`src/models.py`, class `BillItem`). -/
structure BillItem where
  id : Nat
  billId : Nat
  productId : Nat
  quantity : Int
  sellingPrice : Rat
  discount : Rat
  totalPrice : Rat
  deriving Repr, DecidableEq

/-- The persisted database state. -/
structure DB where
  products : List Product
  bills : List Bill
  billItems : List BillItem
  movements : List StockMovement
  deriving Repr, DecidableEq

/-- `Bill.query.filter_by(id=bill_id, user_id=current_user.id).first()`. -/
def findBill (db : DB) (uid billId : Nat) : Option Bill :=
  db.bills.find? (fun b => b.id == billId && b.userId == uid)

/-- `Product.query.filter_by(id=product_id, user_id=current_user.id).first()`. -/
def findProduct (db : DB) (uid productId : Nat) : Option Product :=
  db.products.find? (fun p => p.id == productId && p.userId == uid)

/-- The `bill.items` relationship: all `bill_items` rows of the bill. -/
def itemsOf (db : DB) (billId : Nat) : List BillItem :=
  db.billItems.filter (fun it => it.billId == billId)

/-- Replace a product row in the table, matching on primary key. -/
def setProduct (products : List Product) (p : Product) : List Product :=
  products.map (fun q => if q.id == p.id then p else q)

/-- Replace a bill row in the table, matching on primary key. -/
def setBill (bills : List Bill) (b : Bill) : List Bill :=
  bills.map (fun q => if q.id == b.id then b else q)

/-- `BillItem.calculate_total` (`src/models.py` lines 175-177):
`total_price = selling_price * quantity - discount`. -/
def itemTotal (sellingPrice : Rat) (quantity : Int) (discount : Rat) : Rat :=
  sellingPrice * (quantity : Rat) - discount

/-- `Bill.calculate_totals` (`src/models.py` lines 156-159) applied to a bill
row given the bill's current items: `subtotal = Σ item.total_price;
total_amount = subtotal + tax_amount - discount_amount`. -/
def calculateTotals (b : Bill) (items : List BillItem) : Bill :=
  let st := (items.map (·.totalPrice)).sum
  { b with subtotal := st, totalAmount := st + b.taxAmount - b.discountAmount }

/-- Error responses returned by the billing API handlers. -/
inductive ApiError where
  | negativeAmount
  | invalidBill
  | invalidBillOrProduct
  | alreadyCompleted
  | emptyBill
  | quantityNotPositive
  | productMissing (itemId : Nat)
  | insufficientStock (productName : String) (available : Int)
  | notFound
  | invalidMovementType
  | invalidQuantity
  deriving Repr, DecidableEq

instance {ε α : Type} [DecidableEq ε] [DecidableEq α] :
    DecidableEq (Except ε α) := fun x y =>
  match x, y with
  | .ok a, .ok b =>
    if h : a = b then isTrue (by rw [h])
    else isFalse (by intro hc; injection hc; contradiction)
  | .error a, .error b =>
    if h : a = b then isTrue (by rw [h])
    else isFalse (by intro hc; injection hc; contradiction)
  | .ok _, .error _ => isFalse (by intro hc; cases hc)
  | .error _, .ok _ => isFalse (by intro hc; cases hc)

/-- The per-item loop of `complete_bill` (`src/app.py` lines 937-960): walk
the bill's items in order; for each, fail if the product row is gone or
understocked, otherwise decrement its stock and record an `OUT` / `SALE`
movement.  Returns the updated product table and the movements in order. -/
def completeItems (uid billId : Nat) (items : List BillItem)
    (products : List Product) :
    Except ApiError (List Product × List StockMovement) :=
  match items with
  | [] => .ok (products, [])
  | item :: rest =>
    match products.find? (fun p => p.id == item.productId) with
    | none => .error (.productMissing item.id)
    | some product =>
      if product.currentStock < item.quantity then
        .error (.insufficientStock product.name product.currentStock)
      else
        let newStock := product.currentStock - item.quantity
        let products' := setProduct products { product with currentStock := newStock }
        let movement : StockMovement :=
          { productId := product.id
            userId := uid
            movementType := "OUT"
            quantity := item.quantity
            previousStock := newStock + item.quantity
            newStock := newStock
            price := item.sellingPrice
            referenceType := "SALE"
            referenceId := some (toString billId)
            reason := "Product sale" }
        match completeItems uid billId rest products' with
        | .error e => .error e
        | .ok (ps, ms) => .ok (ps, movement :: ms)

/-- `complete_bill` (`src/app.py` lines 906-984).  Checks run in source
order: negative `amount_paid`, bill lookup scoped to the caller, already
COMPLETED, empty bill, then the per-item stock loop; only the success path
commits, so every failure leaves the database unchanged. -/
def complete_bill (db : DB) (uid billId : Nat) (paymentMethod : String)
    (amountPaid : Rat) : Except ApiError Unit × DB :=
  if amountPaid < 0 then (.error .negativeAmount, db)
  else
    match findBill db uid billId with
    | none => (.error .invalidBill, db)
    | some bill =>
      if bill.status == "COMPLETED" then (.error .alreadyCompleted, db)
      else
        let items := itemsOf db billId
        if items.isEmpty then (.error .emptyBill, db)
        else
          match completeItems uid billId items db.products with
          | .error e => (.error e, db)
          | .ok (products', movements') =>
            let bill' := { bill with
              status := "COMPLETED"
              paymentMethod := some paymentMethod
              amountPaid := amountPaid }
            (.ok (), { db with
              products := products'
              movements := db.movements ++ movements'
              bills := setBill db.bills bill' })

/-- `hold_bill` (`src/app.py` lines 986-1000).  The handler looks the bill
up scoped to the caller and unconditionally sets `status = 'HOLD'`:
there is no check on the bill's current status. -/
def hold_bill (db : DB) (uid billId : Nat) : Except ApiError Unit × DB :=
  match findBill db uid billId with
  | none => (.error .invalidBill, db)
  | some bill =>
    (.ok (), { db with bills := setBill db.bills { bill with status := "HOLD" } })

/-- `resume_bill` (`src/app.py` lines 1002-1011): the lookup filters on
`status='HOLD'`, so only held bills resume, becoming DRAFT. -/
def resume_bill (db : DB) (uid billId : Nat) : Except ApiError Unit × DB :=
  match db.bills.find?
      (fun b => b.id == billId && b.userId == uid && b.status == "HOLD") with
  | none => (.error .invalidBill, db)
  | some bill =>
    (.ok (), { db with bills := setBill db.bills { bill with status := "DRAFT" } })

/-- Fresh primary key for a new `bill_items` row. -/
def freshItemId (db : DB) : Nat :=
  (db.billItems.map (·.id)).foldl max 0 + 1

/-- `add_bill_item` (`src/app.py` lines 850-904).  Checks run in source
order: non-positive quantity, bill and product lookups scoped to the
caller, then the upsert: an existing `(bill, product)` row has its quantity
incremented (re-checking `current_stock < existing + qty`), otherwise a new
row is inserted after checking `current_stock < qty`; the bill's totals are
recomputed and committed.  `current_stock` itself is never written. -/
def add_bill_item (db : DB) (uid billId productId : Nat) (quantity : Int) :
    Except ApiError Unit × DB :=
  if quantity ≤ 0 then (.error .quantityNotPositive, db)
  else
    match findBill db uid billId, findProduct db uid productId with
    | some bill, some product =>
      match db.billItems.find?
          (fun it => it.billId == billId && it.productId == productId) with
      | some existingItem =>
        let newQuantity := existingItem.quantity + quantity
        if product.currentStock < newQuantity then
          (.error (.insufficientStock product.name product.currentStock), db)
        else
          let item' := { existingItem with
            quantity := newQuantity
            totalPrice := itemTotal existingItem.sellingPrice newQuantity existingItem.discount }
          let billItems' := db.billItems.map
            (fun it => if it.id == existingItem.id then item' else it)
          let bill' := calculateTotals bill
            (billItems'.filter (fun it => it.billId == billId))
          (.ok (), { db with billItems := billItems', bills := setBill db.bills bill' })
      | none =>
        if product.currentStock < quantity then
          (.error (.insufficientStock product.name product.currentStock), db)
        else
          let item : BillItem :=
            { id := freshItemId db
              billId := billId
              productId := productId
              quantity := quantity
              sellingPrice := product.sellingPrice
              discount := 0
              totalPrice := itemTotal product.sellingPrice quantity 0 }
          let billItems' := db.billItems ++ [item]
          let bill' := calculateTotals bill
            (billItems'.filter (fun it => it.billId == billId))
          (.ok (), { db with billItems := billItems', bills := setBill db.bills bill' })
    | _, _ => (.error .invalidBillOrProduct, db)

/-- `update_bill_item` (`src/app.py` lines 1578-1607).  The item is looked
up joined to its bill and scoped to the caller; quantity ≤ 0 deletes the
row, otherwise the quantity is re-checked against the product's stock and
updated; in both success paths the bill's totals are recomputed. -/
def update_bill_item (db : DB) (uid itemId : Nat) (quantity : Int) :
    Except ApiError Unit × DB :=
  match db.billItems.find? (fun it => it.id == itemId) with
  | none => (.error .notFound, db)
  | some item =>
    match db.bills.find? (fun b => b.id == item.billId && b.userId == uid) with
    | none => (.error .notFound, db)
    | some bill =>
      if quantity ≤ 0 then
        let billItems' := db.billItems.filter (fun it => !(it.id == itemId))
        let bill' := calculateTotals bill
          (billItems'.filter (fun it => it.billId == bill.id))
        (.ok (), { db with billItems := billItems', bills := setBill db.bills bill' })
      else
        match db.products.find? (fun p => p.id == item.productId) with
        | none => (.error .notFound, db)
        | some product =>
          if product.currentStock < quantity then
            (.error (.insufficientStock product.name product.currentStock), db)
          else
            let item' := { item with
              quantity := quantity
              totalPrice := itemTotal item.sellingPrice quantity item.discount }
            let billItems' := db.billItems.map
              (fun it => if it.id == itemId then item' else it)
            let bill' := calculateTotals bill
              (billItems'.filter (fun it => it.billId == bill.id))
            (.ok (), { db with billItems := billItems', bills := setBill db.bills bill' })

/-- `remove_bill_item` (`src/app.py` lines 1609-1630): delete the row, then
recompute the owning bill's totals (the pending delete is flushed before
the `bill.items` collection loads, so the recomputation excludes the
deleted row) and commit. -/
def remove_bill_item (db : DB) (uid itemId : Nat) : Except ApiError Unit × DB :=
  match db.billItems.find? (fun it => it.id == itemId) with
  | none => (.error .notFound, db)
  | some item =>
    match db.bills.find? (fun b => b.id == item.billId && b.userId == uid) with
    | none => (.error .notFound, db)
    | some bill =>
      let billItems' := db.billItems.filter (fun it => !(it.id == itemId))
      let bill' := calculateTotals bill
        (billItems'.filter (fun it => it.billId == bill.id))
      (.ok (), { db with billItems := billItems', bills := setBill db.bills bill' })

/-- `update_bill_meta` (`src/app.py` lines 1632-1651): overwrite the bill's
discount and tax adjustments and recompute the totals.  Customer name and
phone are not modelled (no claim mentions them). -/
def update_bill_meta (db : DB) (uid billId : Nat) (discount tax : Rat) :
    Except ApiError Unit × DB :=
  match findBill db uid billId with
  | none => (.error .notFound, db)
  | some bill =>
    let bill' := calculateTotals
      { bill with discountAmount := discount, taxAmount := tax }
      (itemsOf db billId)
    (.ok (), { db with bills := setBill db.bills bill' })

/-- `adjust_stock` (`src/app.py` lines 1245-1300).  After the ownership
lookup and the positivity check, the new stock is computed per movement
type — `IN` adds, `OUT` floors at 0, `SET` replaces absolutely — then the
product is updated and one movement row carrying the movement type as given
(including the literal string `SET`), `abs(quantity)`, the previous and the
new stock is committed. -/
def adjust_stock (db : DB) (uid productId : Nat) (movementType : String)
    (quantity : Int) (reason : String) : Except ApiError Unit × DB :=
  match findProduct db uid productId with
  | none => (.error .notFound, db)
  | some product =>
    if quantity ≤ 0 then (.error .invalidQuantity, db)
    else
      let oldStock := product.currentStock
      let newStock? : Option Int :=
        if movementType == "IN" then some (oldStock + quantity)
        else if movementType == "OUT" then some (max 0 (oldStock - quantity))
        else if movementType == "SET" then some quantity
        else none
      match newStock? with
      | none => (.error .invalidMovementType, db)
      | some newStock =>
        let movement : StockMovement :=
          { productId := product.id
            userId := uid
            movementType := movementType
            quantity := |quantity|
            previousStock := oldStock
            newStock := newStock
            price := if movementType == "IN" then product.purchasePrice
                     else product.sellingPrice
            referenceType := "ADJUSTMENT"
            referenceId := none
            reason := reason }
        (.ok (), { db with
          products := setProduct db.products { product with currentStock := newStock }
          movements := db.movements ++ [movement] })

/-- Fresh primary key for a new `products` row (`db.session.flush()`
assigns it before the movement row references it). -/
def freshProductId (db : DB) : Nat :=
  (db.products.map (·.id)).foldl max 0 + 1

/-- Outcome of `add_product`. -/
inductive AddProductResult where
  /-- The per-owner duplicate check hit: flash a warning and redirect to
  the existing product's edit page. -/
  | duplicateForUser (existingId : Nat)
  /-- Product (and, for positive stock, its initial movement) committed. -/
  | created (productId : Nat)
  /-- The commit violates the schema's global UNIQUE constraint on
  `products.barcode` (`src/models.py` line 67): unhandled `IntegrityError`. -/
  | constraintViolation
  deriving Repr, DecidableEq

/-- `add_product` (`src/app.py` lines 585-635).  The pre-insert duplicate
check is scoped to the current user (`filter_by(barcode=…, user_id=…)`);
the insert itself must satisfy the schema's GLOBAL unique constraint on
`barcode`, checked at commit.  A positive initial stock also records one
`IN` / `PURCHASE` movement from 0 to the initial stock. -/
def add_product (db : DB) (uid : Nat) (barcode name : String)
    (purchasePrice sellingPrice : Rat) (currentStock : Int) :
    AddProductResult × DB :=
  match db.products.find? (fun p => p.barcode == barcode && p.userId == uid) with
  | some existing => (.duplicateForUser existing.id, db)
  | none =>
    let pid := freshProductId db
    let product : Product :=
      { id := pid
        userId := uid
        barcode := barcode
        name := name
        purchasePrice := purchasePrice
        sellingPrice := sellingPrice
        currentStock := currentStock }
    let movements' :=
      if currentStock > 0 then
        db.movements ++
          [{ productId := pid
             userId := uid
             movementType := "IN"
             quantity := currentStock
             previousStock := 0
             newStock := currentStock
             price := purchasePrice
             referenceType := "PURCHASE"
             referenceId := none
             reason := "Initial stock entry" }]
      else db.movements
    if db.products.any (fun p => p.barcode == barcode) then
      (.constraintViolation, db)
    else
      (.created pid, { db with
        products := db.products ++ [product]
        movements := movements' })

/-- The stock-adjustment branch of `edit_product` (`src/app.py` lines
652-670): when the submitted stock differs from the current one, record an
`IN` (increase) or `OUT` (decrease) `ADJUSTMENT` movement for the
difference and set the product's stock to the submitted value. -/
def edit_product_stock (db : DB) (uid productId : Nat) (newStock : Int) :
    Except ApiError Unit × DB :=
  match findProduct db uid productId with
  | none => (.error .notFound, db)
  | some product =>
    if newStock == product.currentStock then (.ok (), db)
    else
      let diff := newStock - product.currentStock
      let movement : StockMovement :=
        { productId := product.id
          userId := uid
          movementType := if diff > 0 then "IN" else "OUT"
          quantity := |diff|
          previousStock := product.currentStock
          newStock := newStock
          price := product.purchasePrice
          referenceType := "ADJUSTMENT"
          referenceId := none
          reason := "Manual stock adjustment" }
      (.ok (), { db with
        products := setProduct db.products { product with currentStock := newStock }
        movements := db.movements ++ [movement] })

/-- `get_bill_items` (`src/app.py` lines 1224-1243): `none` models the 404
returned when the bill does not exist or belongs to another user. -/
def get_bill_items (db : DB) (uid billId : Nat) : Option (List BillItem) :=
  match findBill db uid billId with
  | none => none
  | some _ => some (itemsOf db billId)

/-- `get_stock_movements` (`src/app.py` lines 1558-1574): the query filters
ONLY by `product_id` — there is no ownership check and no 404 for a missing
product — and returns the newest 20 rows (`order_by(created_at.desc()).
limit(20)`; the movement list is in ascending insertion order, so newest
first is its reverse). -/
def get_stock_movements (db : DB) (uid productId : Nat) : List StockMovement :=
  let _ := uid
  ((db.movements.filter (fun m => m.productId == productId)).reverse).take 20

/-- `LIKE 'BILL-date-%'` as a prefix test on the character data (kept
structurally recursive so that concrete instances evaluate). -/
def strIsPrefix (p s : String) : Bool :=
  p.data.isPrefixOf s.data

/-- `bill_number.split('-')[-1]`: the suffix after the last dash (the whole
string when it has no dash). -/
def lastDashComponent (s : String) : String :=
  String.mk ((s.data.reverse.takeWhile (fun c => c != '-')).reverse)

/-- `int(...)` as applied to a dash-free bill-number suffix: the decimal
value of an all-digit string, `none` (a raising `int()`) otherwise. -/
def parseNat? (s : String) : Option Nat :=
  if !s.data.isEmpty && s.data.all (fun c => c.isDigit) then
    some (s.data.foldl (fun n c => n * 10 + (c.toNat - Char.toNat (Char.ofNat 48))) 0)
  else none

/-- `f"BILL-{today.strftime('%Y%m%d')}-"`, the per-day bill prefix; the
date string `YYYYMMDD` is a parameter of the model. -/
def dayBillPfx (date : String) : String :=
  "BILL-" ++ date ++ "-"

/-- `f"{n:04d}"`: decimal with zero padding to at least four digits. -/
def pad4 (n : Nat) : String :=
  let s := toString n
  if s.length < 4 then String.mk (List.replicate (4 - s.length) '0') ++ s else s

/-- Codepoint-wise lexicographic comparison of character lists: the order
SQLite's BINARY collation gives ASCII bill numbers. -/
def charListLt : List Char → List Char → Bool
  | [], [] => false
  | [], _ :: _ => true
  | _ :: _, [] => false
  | a :: as, b :: bs =>
    if a.toNat < b.toNat then true
    else if b.toNat < a.toNat then false
    else charListLt as bs

/-- String comparison under the BINARY collation (kept structurally
recursive so that concrete instances evaluate). -/
def strLt (a b : String) : Bool :=
  charListLt a.data b.data

/-- One comparison step of the running string maximum. -/
def maxStep (acc : Option String) (s : String) : Option String :=
  match acc with
  | none => some s
  | some a => if strLt a s then some s else some a

/-- Greatest string of a list (`ORDER BY … DESC` + `first()`). -/
def listMaxStr (l : List String) : Option String :=
  l.foldl maxStep none

/-- The query of `src/app.py` lines 756-759: among the caller's bills whose
number matches `BILL-date-%`, the greatest bill number in string order
(`order_by(bill_number.desc()).first()` under the binary collation). -/
def lastBillNumber (db : DB) (uid : Nat) (pfx : String) : Option String :=
  listMaxStr
    ((db.bills.filter
      (fun b => b.userId == uid && strIsPrefix pfx b.billNumber)).map
        (·.billNumber))

/-- Lines 761-771: parse the trailing `-`-separated component of the last
bill number as a decimal (`int(bill_number.split('-')[-1])`) and add one;
any failure — no matching bill, or a non-numeric suffix — yields 1. -/
def nextSeqNum (db : DB) (uid : Nat) (pfx : String) : Nat :=
  match lastBillNumber db uid pfx with
  | none => 1
  | some lastNum =>
    match parseNat? (lastDashComponent lastNum) with
    | none => 1
    | some n => n + 1

/-- `Bill.query.filter_by(bill_number=…).first()` is not user-scoped: the
uniqueness probe (and the schema constraint) is global. -/
def billNumberTaken (db : DB) (num : String) : Bool :=
  db.bills.any (fun b => b.billNumber == num)

/-- The `for attempt in range(max_attempts)` loop of lines 754-781: each
attempt recomputes the candidate from the database and keeps it only if no
bill anywhere holds that number. -/
def genAttempts (db : DB) (uid : Nat) (pfx : String) : Nat → Option String
  | 0 => none
  | fuel + 1 =>
    let candidate := pfx ++ pad4 (nextSeqNum db uid pfx)
    if billNumberTaken db candidate then genAttempts db uid pfx fuel
    else some candidate

/-- Fresh primary key for a new `bills` row. -/
def freshBillId (db : DB) : Nat :=
  (db.bills.map (·.id)).foldl max 0 + 1

/-- Outcome of `create_bill`. -/
inductive CreateBillResult where
  | ok (billId : Nat) (billNumber : String)
  | err
  deriving Repr, DecidableEq

/-- `create_bill` (`src/app.py` lines 750-823).  Ten generation attempts;
on exhaustion the number falls back to `BILL-date-ts` where `ts` is the
`HHMMSSfff` timestamp (a model parameter, like the clock).  The commit
enforces the global UNIQUE constraint on `bill_number`; a violation is
caught once, the number is regenerated from a second timestamp `ts2`, and
the commit is retried exactly once before the error surfaces. -/
def create_bill (db : DB) (uid : Nat) (date ts ts2 : String) :
    CreateBillResult × DB :=
  let pfx := dayBillPfx date
  let billNumber :=
    match genAttempts db uid pfx 10 with
    | some n => n
    | none => pfx ++ ts
  let bid := freshBillId db
  let bill : Bill :=
    { id := bid
      billNumber := billNumber
      status := "DRAFT"
      subtotal := 0
      taxAmount := 0
      discountAmount := 0
      totalAmount := 0
      amountPaid := 0
      paymentMethod := none
      userId := uid }
  if billNumberTaken db billNumber then
    let retryNumber := pfx ++ ts2
    if billNumberTaken db retryNumber then (.err, db)
    else
      (.ok bid retryNumber,
        { db with bills := db.bills ++ [{ bill with billNumber := retryNumber }] })
  else
    (.ok bid billNumber, { db with bills := db.bills ++ [bill] })

/-! ## Generic row-replacement lemmas -/

/-- Replacing the found bill row by one with the same primary key that still
satisfies the search predicate makes the search return the replacement. -/
theorem find?_setBill (bills : List Bill) (p : Bill → Bool) (x x' : Bill)
    (hf : bills.find? p = some x) (hp : p x' = true) (hk : x'.id = x.id) :
    (setBill bills x').find? p = some x' := by
  induction bills with
  | nil => simp [List.find?] at hf
  | cons a t ih =>
    by_cases hpa : p a
    · rw [List.find?_cons_of_pos _ hpa] at hf
      injection hf with hax
      subst hax
      have : (a.id == x'.id) = true := by simp [hk]
      simp only [setBill, List.map_cons, this, if_pos rfl]
      exact List.find?_cons_of_pos _ hp
    · rw [List.find?_cons_of_neg _ hpa] at hf
      by_cases hid : a.id == x'.id
      · simp only [setBill, List.map_cons, if_pos hid]
        exact List.find?_cons_of_pos _ hp
      · simp only [setBill, List.map_cons, if_neg hid]
        rw [List.find?_cons_of_neg _ hpa]
        exact ih hf

/-- Product version of `find?_setBill`. -/
theorem find?_setProduct (products : List Product) (p : Product → Bool)
    (x x' : Product) (hf : products.find? p = some x) (hp : p x' = true)
    (hk : x'.id = x.id) :
    (setProduct products x').find? p = some x' := by
  induction products with
  | nil => simp [List.find?] at hf
  | cons a t ih =>
    by_cases hpa : p a
    · rw [List.find?_cons_of_pos _ hpa] at hf
      injection hf with hax
      subst hax
      have : (a.id == x'.id) = true := by simp [hk]
      simp only [setProduct, List.map_cons, this, if_pos rfl]
      exact List.find?_cons_of_pos _ hp
    · rw [List.find?_cons_of_neg _ hpa] at hf
      by_cases hid : a.id == x'.id
      · simp only [setProduct, List.map_cons, if_pos hid]
        exact List.find?_cons_of_pos _ hp
      · simp only [setProduct, List.map_cons, if_neg hid]
        rw [List.find?_cons_of_neg _ hpa]
        exact ih hf

/-- Replacing a product row leaves searches for a different primary key
untouched. -/
theorem find?_setProduct_ne (products : List Product) (x' : Product) (t : Nat)
    (h : x'.id ≠ t) :
    (setProduct products x').find? (fun p => p.id == t)
      = products.find? (fun p => p.id == t) := by
  induction products with
  | nil => rfl
  | cons a l ih =>
    by_cases hid : a.id == x'.id
    · have haid : a.id = x'.id := by simpa using hid
      have hpa : ((fun p : Product => p.id == t) a) = false := by
        simp [haid, h]
      have hpx : ((fun p : Product => p.id == t) x') = false := by simp [h]
      simp only [setProduct, List.map_cons, if_pos hid]
      rw [List.find?_cons_of_neg _ (by simp [hpx]),
        List.find?_cons_of_neg _ (by simp [hpa])]
      exact ih
    · simp only [setProduct, List.map_cons, if_neg hid]
      by_cases hpa : ((fun p : Product => p.id == t) a) = true
      · rw [List.find?_cons_of_pos (p := fun p : Product => p.id == t) _ hpa,
          List.find?_cons_of_pos (p := fun p : Product => p.id == t) _ hpa]
      · rw [List.find?_cons_of_neg (p := fun p : Product => p.id == t) _
            (by simpa using hpa),
          List.find?_cons_of_neg (p := fun p : Product => p.id == t) _
            (by simpa using hpa)]
        exact ih

/-- Row replacement never changes the sequence of primary keys. -/
theorem map_id_setProduct (products : List Product) (x' : Product) :
    (setProduct products x').map (·.id) = products.map (·.id) := by
  unfold setProduct
  rw [List.map_map]
  refine List.map_congr_left ?_
  intro q _
  by_cases hid : q.id == x'.id
  · have hq : q.id = x'.id := by simpa using hid
    simp [Function.comp, hid, hq]
  · simp [Function.comp, hid]

/-- If the first row satisfying `p` also satisfies the stronger predicate
`q`, it is likewise the first row satisfying `q`. -/
theorem find?_of_stronger {α : Type} (l : List α) (p q : α → Bool)
    (hpq : ∀ b, q b = true → p b = true) (x : α) (hf : l.find? p = some x)
    (hq : q x = true) : l.find? q = some x := by
  induction l with
  | nil => simp [List.find?] at hf
  | cons a t ih =>
    by_cases hpa : p a
    · rw [List.find?_cons_of_pos _ hpa] at hf
      injection hf with hax
      subst hax
      exact List.find?_cons_of_pos _ hq
    · have hqa : ¬q a = true := fun h => hpa (hpq a h)
      rw [List.find?_cons_of_neg _ hpa] at hf
      rw [List.find?_cons_of_neg _ hqa]
      exact ih hf

/-- With unique bill primary keys, the status-filtered lookup of
`resume_bill` finds nothing when the bill found by the plain owner-scoped
lookup is not on HOLD. -/
theorem resume_lookup_none (bills : List Bill) (billId uid : Nat) (bill : Bill)
    (hnd : (bills.map (·.id)).Nodup)
    (hf : bills.find? (fun b => b.id == billId && b.userId == uid) = some bill)
    (hst : bill.status ≠ "HOLD") :
    bills.find?
      (fun b => b.id == billId && b.userId == uid && b.status == "HOLD")
      = none := by
  cases hq : bills.find?
      (fun b => b.id == billId && b.userId == uid && b.status == "HOLD") with
  | none => rfl
  | some c =>
    exfalso
    have hcmem := List.mem_of_find?_eq_some hq
    have hbmem := List.mem_of_find?_eq_some hf
    have hcp := List.find?_some hq
    have hbp := List.find?_some hf
    simp only [Bool.and_eq_true, beq_iff_eq] at hcp hbp
    have hcb : c = bill := by
      refine List.inj_on_of_nodup_map hnd hcmem hbmem ?_
      show c.id = bill.id
      rw [hcp.1.1, hbp.1]
    exact hst (hcb ▸ hcp.2)

/-! ## Concrete fixtures used by counterexamples and witnesses -/

namespace Fixture

/-- Product 1, owned by user 1: 5 in stock. -/
def soap : Product :=
  { id := 1, userId := 1, barcode := "B1", name := "Soap", purchasePrice := 10, sellingPrice := 15, currentStock := 5 }

/-- Product 2, owned by user 1: 2 in stock. -/
def oil : Product :=
  { id := 2, userId := 1, barcode := "B2", name := "Oil", purchasePrice := 50, sellingPrice := 70, currentStock := 2 }

/-- Bill 1 (user 1): an open DRAFT holding item 1. -/
def draftBill : Bill :=
  { id := 1, billNumber := "BILL-20251012-0001", status := "DRAFT", subtotal := 30, taxAmount := 0, discountAmount := 0, totalAmount := 30, amountPaid := 0, paymentMethod := none, userId := 1 }

/-- Bill 2 (user 1): already COMPLETED. -/
def completedBill : Bill :=
  { id := 2, billNumber := "BILL-20251012-0002", status := "COMPLETED", subtotal := 0, taxAmount := 0, discountAmount := 0, totalAmount := 0, amountPaid := 0, paymentMethod := some "CASH", userId := 1 }

/-- Bill 3 (user 1): CANCELLED, still holding item 2. -/
def cancelledBill : Bill :=
  { id := 3, billNumber := "BILL-20251012-0003", status := "CANCELLED", subtotal := 15, taxAmount := 0, discountAmount := 0, totalAmount := 15, amountPaid := 0, paymentMethod := none, userId := 1 }

/-- Bill 4 (user 1): parked on HOLD, empty. -/
def holdBill : Bill :=
  { id := 4, billNumber := "BILL-20251012-0004", status := "HOLD", subtotal := 0, taxAmount := 0, discountAmount := 0, totalAmount := 0, amountPaid := 0, paymentMethod := none, userId := 1 }

/-- Line 1 of bill 1: 2 soaps. -/
def item1 : BillItem :=
  { id := 1, billId := 1, productId := 1, quantity := 2, sellingPrice := 15, discount := 0, totalPrice := 30 }

/-- Line 2 of bill 3: 1 soap. -/
def item2 : BillItem :=
  { id := 2, billId := 3, productId := 1, quantity := 1, sellingPrice := 15, discount := 0, totalPrice := 15 }

/-- Initial-stock movement of product 1, written by user 1. -/
def mv1 : StockMovement :=
  { productId := 1, userId := 1, movementType := "IN", quantity := 5, previousStock := 0, newStock := 5, price := 10, referenceType := "PURCHASE", referenceId := none, reason := "Initial stock entry" }

/-- The fixture database: all rows belong to user 1. -/
def db : DB :=
  { products := [soap, oil], bills := [draftBill, completedBill, cancelledBill, holdBill], billItems := [item1, item2], movements := [mv1] }

end Fixture

/-! ## C3 — bill status transitions -/

/-- C3 counterexample: the claim says COMPLETED bills are terminal and that
holding a COMPLETED bill fails with `InvalidTransition`; but `hold_bill`
performs no status check, so holding the COMPLETED bill 2 succeeds and
moves it to HOLD. -/
theorem hold_completed_bill_succeeds :
    (findBill Fixture.db 1 2).map (·.status) = some "COMPLETED" ∧
    (hold_bill Fixture.db 1 2).1 = .ok () ∧
    (findBill (hold_bill Fixture.db 1 2).2 1 2).map (·.status) = some "HOLD" := by
  decide

/-- C3 (amended): `resume` moves exactly HOLD → DRAFT and `complete`
rejects exactly the COMPLETED status, but `hold` unconditionally moves any
owned bill — whatever its status, including COMPLETED and CANCELLED — to
HOLD, and a CANCELLED bill with stocked items completes successfully; no
operation fails with a dedicated `InvalidTransition` error. -/
theorem bill_status_transitions :
    (∀ (db : DB) (uid billId : Nat) (bill : Bill),
        findBill db uid billId = some bill →
        hold_bill db uid billId =
          (.ok (), { db with
            bills := setBill db.bills { bill with status := "HOLD" } })) ∧
    (∀ (db : DB) (uid billId : Nat),
        findBill db uid billId = none →
        hold_bill db uid billId = (.error .invalidBill, db)) ∧
    (∀ (db : DB) (uid billId : Nat) (bill : Bill),
        findBill db uid billId = some bill → bill.status = "HOLD" →
        resume_bill db uid billId =
          (.ok (), { db with
            bills := setBill db.bills { bill with status := "DRAFT" } })) ∧
    (∀ (db : DB) (uid billId : Nat) (bill : Bill),
        (db.bills.map (·.id)).Nodup →
        findBill db uid billId = some bill → bill.status ≠ "HOLD" →
        resume_bill db uid billId = (.error .invalidBill, db)) ∧
    (∀ (db : DB) (uid billId : Nat) (bill : Bill) (pm : String) (ap : Rat),
        0 ≤ ap → findBill db uid billId = some bill →
        bill.status = "COMPLETED" →
        complete_bill db uid billId pm ap = (.error .alreadyCompleted, db)) ∧
    ((complete_bill Fixture.db 1 3 "CASH" 20).1 = .ok ()) := by
  refine ⟨?_, ?_, ?_, ?_, ?_, ?_⟩
  · intro db uid billId bill hf
    simp only [hold_bill, findBill] at hf ⊢
    rw [hf]
  · intro db uid billId hf
    simp only [hold_bill, findBill] at hf ⊢
    rw [hf]
  · intro db uid billId bill hf hst
    have hfind := find?_of_stronger db.bills
      (fun b => b.id == billId && b.userId == uid)
      (fun b => b.id == billId && b.userId == uid && b.status == "HOLD")
      (by intro b hb
          simp only [Bool.and_eq_true] at hb ⊢
          exact hb.1) bill (by simpa [findBill] using hf)
      (by simp only [Bool.and_eq_true, beq_iff_eq]
          have hp := List.find?_some (p := fun b : Bill =>
            b.id == billId && b.userId == uid) (by simpa [findBill] using hf)
          simp only [Bool.and_eq_true, beq_iff_eq] at hp
          exact ⟨hp, hst⟩)
    simp only [resume_bill]
    rw [hfind]
  · intro db uid billId bill hnd hf hst
    have hnone := resume_lookup_none db.bills billId uid bill hnd
      (by simpa [findBill] using hf) hst
    simp only [resume_bill]
    rw [hnone]
  · intro db uid billId bill pm ap hap hf hst
    simp only [complete_bill]
    rw [if_neg (not_lt.mpr hap), hf]
    simp [hst]
  · decide

/-- Witness for `bill_status_transitions` at the fixture database: hold a
COMPLETED bill, resume the held bill 4, fail to resume the DRAFT bill 1,
and fail to complete the COMPLETED bill 2. -/
theorem bill_status_transitions_witness :
    hold_bill Fixture.db 1 2 =
      (.ok (), { Fixture.db with
        bills := setBill Fixture.db.bills
          { Fixture.completedBill with status := "HOLD" } }) ∧
    resume_bill Fixture.db 1 4 =
      (.ok (), { Fixture.db with
        bills := setBill Fixture.db.bills
          { Fixture.holdBill with status := "DRAFT" } }) ∧
    resume_bill Fixture.db 1 1 = (.error .invalidBill, Fixture.db) ∧
    complete_bill Fixture.db 1 2 "CASH" 0 =
      (.error .alreadyCompleted, Fixture.db) := by
  obtain ⟨h1, _h2, h3, h4, h5, _h6⟩ := bill_status_transitions
  exact ⟨h1 Fixture.db 1 2 Fixture.completedBill (by decide),
    h3 Fixture.db 1 4 Fixture.holdBill (by decide) (by decide),
    h4 Fixture.db 1 1 Fixture.draftBill (by decide) (by decide) (by decide),
    h5 Fixture.db 1 2 Fixture.completedBill "CASH" 0 (by norm_num) (by decide)
      (by decide)⟩

/-! ## C1 — failed completion has no side effects -/

/-- Bill 5 (user 1): DRAFT with two lines, the second of which oversells
product 2 (wants 3, only 2 in stock). -/
def Fixture.overdrawnBill : Bill :=
  { id := 5, billNumber := "BILL-20251012-0005", status := "DRAFT", subtotal := 240, taxAmount := 0, discountAmount := 0, totalAmount := 240, amountPaid := 0, paymentMethod := none, userId := 1 }

/-- Line 1 of bill 5: 2 soaps (in stock). -/
def Fixture.item3 : BillItem :=
  { id := 3, billId := 5, productId := 1, quantity := 2, sellingPrice := 15, discount := 0, totalPrice := 30 }

/-- Line 2 of bill 5: 3 oils (stock is only 2). -/
def Fixture.item4 : BillItem :=
  { id := 4, billId := 5, productId := 2, quantity := 3, sellingPrice := 70, discount := 0, totalPrice := 210 }

/-- The fixture database extended with the overdrawable bill 5. -/
def Fixture.db2 : DB :=
  { Fixture.db with
    bills := Fixture.db.bills ++ [Fixture.overdrawnBill]
    billItems := Fixture.db.billItems ++ [Fixture.item3, Fixture.item4] }

/-- C1: every `complete_bill` call that fails — whatever the cause: empty
bill, already completed, a vanished product, or an understocked line later
in the bill — publishes no change at all: the committed database, and with
it the bill's status, every product's stock and the movement log, is
exactly the one before the call. -/
theorem complete_bill_failure_preserves_state (db : DB) (uid billId : Nat)
    (pm : String) (ap : Rat) (e : ApiError)
    (hf : (complete_bill db uid billId pm ap).1 = .error e) :
    (complete_bill db uid billId pm ap).2 = db := by
  unfold complete_bill at hf ⊢
  by_cases h0 : ap < 0
  · simp [h0]
  · simp only [if_neg h0] at hf ⊢
    cases hb : findBill db uid billId with
    | none => simp
    | some bill =>
      simp only [hb] at hf ⊢
      by_cases hc : (bill.status == "COMPLETED") = true
      · simp [hc]
      · simp only [hc] at hf ⊢
        by_cases he : (itemsOf db billId).isEmpty = true
        · simp [he]
        · simp only [he] at hf ⊢
          cases hl : completeItems uid billId (itemsOf db billId) db.products with
          | error e2 => simp [hl]
          | ok pair =>
            rw [hl] at hf
            simp only [Bool.false_eq_true, if_false] at hf
            cases hf

/-- Witness for `complete_bill_failure_preserves_state`: completing bill 5
fails on its second line (product Oil: wants 3, has 2) and the database —
including the already-checked first line's product stock — is untouched. -/
theorem complete_bill_failure_preserves_state_witness :
    (complete_bill Fixture.db2 1 5 "CASH" 100).1
        = .error (.insufficientStock "Oil" 2) ∧
    (complete_bill Fixture.db2 1 5 "CASH" 100).2 = Fixture.db2 :=
  ⟨by decide,
    complete_bill_failure_preserves_state Fixture.db2 1 5 "CASH" 100
      (.insufficientStock "Oil" 2) (by decide)⟩

/-! ## C2 — successful completion -/

/-- The stock that the product table currently records for a product id
(0 if the row is absent; only used under hypotheses that make it present). -/
def stockOf (products : List Product) (pid : Nat) : Int :=
  ((products.find? (fun p => p.id == pid)).map (·.currentStock)).getD 0

/-- The `OUT` / `SALE` audit row that completing a line writes, given the
product's stock just before the line is processed. -/
def saleMovementOf (uid billId : Nat) (prev : Int) (it : BillItem) :
    StockMovement :=
  { productId := it.productId
    userId := uid
    movementType := "OUT"
    quantity := it.quantity
    previousStock := prev
    newStock := prev - it.quantity
    price := it.sellingPrice
    referenceType := "SALE"
    referenceId := some (toString billId)
    reason := "Product sale" }

/-- Closed form of the completion loop: with pairwise-distinct line
products, distinct product keys, and every line fully stocked, the loop
succeeds, decrements each line's product by exactly the line quantity, and
emits one `OUT`/`SALE` movement per line recording the pre-sale stock. -/
theorem completeItems_spec (uid billId : Nat) :
    ∀ (items : List BillItem) (products : List Product),
      (items.map (·.productId)).Nodup →
      (products.map (·.id)).Nodup →
      (∀ it ∈ items, ∃ p ∈ products,
          p.id = it.productId ∧ it.quantity ≤ p.currentStock) →
      completeItems uid billId items products =
        .ok (products.map (fun p =>
            match items.find? (fun it => it.productId == p.id) with
            | some it => { p with currentStock := p.currentStock - it.quantity }
            | none => p),
          items.map (fun it =>
            saleMovementOf uid billId (stockOf products it.productId) it)) := by
  intro items
  induction items with
  | nil =>
    intro products _ _ _
    simp [completeItems]
  | cons it rest ih =>
    intro products hnd hpd hstock
    obtain ⟨p, hpmem, hpid, hple⟩ := hstock it (by simp)
    have hppred : ((fun q : Product => q.id == it.productId) p) = true := by
      simp [hpid]
    -- the lookup finds exactly p
    have hfind : products.find? (fun q => q.id == it.productId) = some p := by
      cases hq : products.find? (fun q => q.id == it.productId) with
      | none =>
        rw [List.find?_eq_none] at hq
        exact absurd hppred (by simpa using hq p hpmem)
      | some q =>
        have hqmem := List.mem_of_find?_eq_some hq
        have hqpred := List.find?_some hq
        have : q = p := by
          refine List.inj_on_of_nodup_map hpd hqmem hpmem ?_
          show q.id = p.id
          have : q.id = it.productId := by simpa using hqpred
          rw [this, hpid]
        rw [this]
    have hnotlt : ¬ p.currentStock < it.quantity := not_lt.mpr hple
    have hndr : (rest.map (·.productId)).Nodup := by
      simpa [List.nodup_cons] using hnd.of_cons
    have hhead : it.productId ∉ rest.map (·.productId) := by
      have := hnd
      rw [List.map_cons, List.nodup_cons] at this
      exact this.1
    -- the updated product row
    have hih := ih (setProduct products
        { p with currentStock := p.currentStock - it.quantity })
      hndr
      (by rw [map_id_setProduct]; exact hpd)
      (by intro it' hit'
          obtain ⟨p', hp'mem, hp'id, hp'le⟩ := hstock it' (by simp [hit'])
          refine ⟨p', ?_, hp'id, hp'le⟩
          have hne : p'.id ≠ p.id := by
            rw [hp'id, hpid]
            intro hcontra
            exact hhead (hcontra ▸ List.mem_map_of_mem (·.productId) hit')
          have : (fun q : Product =>
              if q.id == ({ p with currentStock := p.currentStock - it.quantity } : Product).id
              then ({ p with currentStock := p.currentStock - it.quantity } : Product)
              else q) p' = p' := by
            simp only []
            rw [if_neg (by simpa using hne)]
          exact this ▸ List.mem_map_of_mem _ hp'mem)
    -- assemble
    have hnewid :
        ({ p with currentStock := p.currentStock - it.quantity } : Product).id
          = p.id := rfl
    simp only [completeItems]
    rw [hfind]
    simp only [if_neg hnotlt]
    rw [hih]
    simp only [Except.ok.injEq, Prod.mk.injEq]
    refine ⟨?_, ?_⟩
    · -- product table: fold the one replacement into the per-line map
      unfold setProduct
      rw [List.map_map]
      refine List.map_congr_left ?_
      intro q hqmem
      simp only [Function.comp_apply, hnewid]
      by_cases hq : (q.id == p.id) = true
      · have hqp : q = p := by
          refine List.inj_on_of_nodup_map hpd hqmem hpmem ?_
          show q.id = p.id
          simpa using hq
        rw [hqp]
        rw [if_pos (by simp)]
        have hrnone : List.find?
            (fun i : BillItem => i.productId ==
              ({ p with currentStock := p.currentStock - it.quantity }
                : Product).id) rest = none := by
          rw [List.find?_eq_none]
          intro x hx
          simp only [hnewid, beq_iff_eq, ← hpid]
          intro hcx
          exact hhead (hpid ▸ hcx ▸ List.mem_map_of_mem (·.productId) hx)
        have hcons : List.find?
            (fun i : BillItem => i.productId == p.id) (it :: rest)
              = some it :=
          List.find?_cons_of_pos _ (by simp [hpid])
        rw [hrnone, hcons]
      · rw [if_neg hq]
        have hqne : q.id ≠ p.id := by simpa using hq
        have hhd : ¬ ((fun i : BillItem => i.productId == q.id) it) = true := by
          simp only [beq_iff_eq, ← hpid]
          exact fun hc => hqne (hc ▸ rfl)
        rw [List.find?_cons_of_neg (p := fun i : BillItem =>
          i.productId == q.id) _ hhd]
    · -- movement log: one OUT / SALE row per line
      simp only [List.map_cons, List.cons.injEq]
      refine ⟨?_, ?_⟩
      · have hstockit : stockOf products it.productId = p.currentStock := by
          simp [stockOf, hfind]
        simp only [saleMovementOf, hstockit, ← hpid, sub_add_cancel]
        rw [hpid, hstockit]
      · refine List.map_congr_left ?_
        intro i hi
        have hstne : stockOf (setProduct products
            { p with currentStock := p.currentStock - it.quantity })
              i.productId = stockOf products i.productId := by
          unfold stockOf
          rw [find?_setProduct_ne products _ i.productId ?_]
          intro hcx
          rw [hnewid, hpid] at hcx
          exact hhead (hcx ▸ List.mem_map_of_mem (·.productId) hi)
        rw [hstne]
/-- C2: completing a DRAFT or HOLD bill whose lines are all stocked
succeeds: each line's product is decremented by exactly the line quantity,
one `OUT` / `SALE` movement carrying `referenceId = str(bill.id)` is
appended per line, and the bill becomes COMPLETED with the given payment
method and amount paid. -/
theorem complete_bill_success (db : DB) (uid billId : Nat) (pm : String)
    (ap : Rat) (bill : Bill)
    (hap : 0 ≤ ap)
    (hb : findBill db uid billId = some bill)
    (hst : bill.status = "DRAFT" ∨ bill.status = "HOLD")
    (hne : itemsOf db billId ≠ [])
    (hnd : ((itemsOf db billId).map (·.productId)).Nodup)
    (hpd : (db.products.map (·.id)).Nodup)
    (hstock : ∀ it ∈ itemsOf db billId, ∃ p ∈ db.products,
        p.id = it.productId ∧ it.quantity ≤ p.currentStock) :
    complete_bill db uid billId pm ap =
      (.ok (), { db with
        products := db.products.map (fun p =>
          match (itemsOf db billId).find? (fun it => it.productId == p.id) with
          | some it => { p with currentStock := p.currentStock - it.quantity }
          | none => p)
        movements := db.movements ++ (itemsOf db billId).map
          (fun it =>
            saleMovementOf uid billId (stockOf db.products it.productId) it)
        bills := setBill db.bills { bill with
          status := "COMPLETED"
          paymentMethod := some pm
          amountPaid := ap } }) := by
  have hnc : (bill.status == "COMPLETED") = false := by
    rcases hst with h | h <;> simp [h]
  have hemp : (itemsOf db billId).isEmpty = false := by
    simpa [List.isEmpty_iff] using hne
  simp only [complete_bill]
  rw [if_neg (not_lt.mpr hap), hb]
  simp only [hnc, Bool.false_eq_true, if_false, hemp]
  rw [completeItems_spec uid billId _ _ hnd hpd hstock]

/-- Witness for `complete_bill_success`: user 1 completes the draft bill 1
(2 soaps) paying 30 by UPI. -/
theorem complete_bill_success_witness :
    complete_bill Fixture.db 1 1 "UPI" 30 =
      (.ok (), { Fixture.db with
        products := Fixture.db.products.map (fun p =>
          match (itemsOf Fixture.db 1).find?
              (fun it => it.productId == p.id) with
          | some it => { p with currentStock := p.currentStock - it.quantity }
          | none => p)
        movements := Fixture.db.movements ++ (itemsOf Fixture.db 1).map
          (fun it =>
            saleMovementOf 1 1 (stockOf Fixture.db.products it.productId) it)
        bills := setBill Fixture.db.bills { Fixture.draftBill with
          status := "COMPLETED"
          paymentMethod := some "UPI"
          amountPaid := 30 } }) :=
  complete_bill_success Fixture.db 1 1 "UPI" 30 Fixture.draftBill
    (by norm_num) (by decide) (Or.inl rfl) (by decide) (by decide) (by decide)
    (by decide)

/-! ## C5 — adding a line to a bill -/

/-- The `bill_items` rows of one product inside one bill. -/
def itemsFor (db : DB) (billId productId : Nat) : List BillItem :=
  db.billItems.filter
    (fun it => it.billId == billId && it.productId == productId)

/-- The quantity already recorded for the product in the bill (0 when no
row exists): `existing_item.quantity` in `add_bill_item`. -/
def existingQty (db : DB) (billId productId : Nat) : Int :=
  ((db.billItems.find?
      (fun it => it.billId == billId && it.productId == productId)).map
    (·.quantity)).getD 0

/-- A filter known to hold at most one row and containing the found row is
that one row. -/
theorem filter_eq_singleton_of_find? (l : List BillItem) (p : BillItem → Bool)
    (e : BillItem) (hf : l.find? p = some e) (hlen : (l.filter p).length ≤ 1) :
    l.filter p = [e] := by
  have hmem : e ∈ l.filter p :=
    List.mem_filter.mpr ⟨List.mem_of_find?_eq_some hf, List.find?_some hf⟩
  match hfl : l.filter p with
  | [] => rw [hfl] at hmem; cases hmem
  | [x] =>
    rw [hfl] at hmem
    have : e = x := by simpa using hmem
    rw [this]
  | x :: y :: t => rw [hfl] at hlen; simp at hlen

/-- Updating the unique matching row in place keeps the filter a singleton
holding the updated row. -/
theorem filter_map_update (l : List BillItem) (p : BillItem → Bool)
    (e e' : BillItem) (hnd : (l.map (·.id)).Nodup)
    (hfl : l.filter p = [e]) (hpe : p e' = true) :
    (l.map (fun it => if it.id == e.id then e' else it)).filter p = [e'] := by
  induction l with
  | nil => simp at hfl
  | cons a t ih =>
    rw [List.map_cons, List.nodup_cons] at hnd
    by_cases hpa : p a = true
    · -- the head is the unique matching row
      have hae : a = e := by
        have := hfl
        rw [List.filter_cons_of_pos hpa] at this
        exact (List.cons.injEq _ _ _ _ ▸ this).1
      have hft : t.filter p = [] := by
        have := hfl
        rw [List.filter_cons_of_pos hpa, hae] at this
        simpa using this
      have hta : ∀ x ∈ t, x.id ≠ e.id := by
        intro x hx hcx
        exact hnd.1 (hae ▸ hcx ▸ List.mem_map_of_mem (·.id) hx)
      have htmap : t.map (fun it => if it.id == e.id then e' else it) = t := by
        have hpt : ∀ x ∈ t, (if x.id == e.id then e' else x) = x := by
          intro x hx
          rw [if_neg (by simpa using hta x hx)]
        rw [List.map_congr_left hpt, List.map_id']
      rw [List.map_cons, hae, if_pos (by simp),
        List.filter_cons_of_pos hpe, htmap, hft]
    · -- the head does not match and is not replaced
      have hane : a.id ≠ e.id := by
        intro hcx
        have hemem : e ∈ t := by
          have : e ∈ t.filter p := by
            have := hfl
            rw [List.filter_cons_of_neg hpa] at this
            rw [this]
            simp
          exact (List.mem_filter.mp this).1
        exact hnd.1 (hcx ▸ List.mem_map_of_mem (·.id) hemem)
      have hfl' : t.filter p = [e] := by
        have := hfl
        rwa [List.filter_cons_of_neg hpa] at this
      rw [List.map_cons, if_neg (by simpa using hane),
        List.filter_cons_of_neg hpa]
      exact ih hnd.2 hfl'

/-- Appending the first matching row to a list with no match makes the
filter exactly that row. -/
theorem filter_append_of_find?_none (l : List BillItem) (p : BillItem → Bool)
    (x : BillItem) (hf : l.find? p = none) (hpx : p x = true) :
    (l ++ [x]).filter p = [x] := by
  rw [List.filter_append, List.filter_eq_nil_iff.mpr, List.nil_append]
  · simp [hpx]
  · intro a ha
    exact fun hpa => by simp [List.find?_eq_none.mp hf a ha] at hpa

/-- C5: `add_bill_item` rejects non-positive quantities, rejects a request
when the product's stock cannot cover the existing line plus the request
(leaving the database untouched), and otherwise upserts: the bill keeps
exactly one row for the product — incremented, with its total re-derived —
the bill's totals are recomputed, and the product table (hence every
`currentStock`) is untouched. -/
theorem add_bill_item_spec :
    (∀ (db : DB) (uid billId productId : Nat) (qty : Int), qty ≤ 0 →
        add_bill_item db uid billId productId qty
          = (.error .quantityNotPositive, db)) ∧
    (∀ (db : DB) (uid billId productId : Nat) (qty : Int)
        (bill : Bill) (product : Product), 0 < qty →
        findBill db uid billId = some bill →
        findProduct db uid productId = some product →
        product.currentStock < existingQty db billId productId + qty →
        (add_bill_item db uid billId productId qty).1
            = .error (.insufficientStock product.name product.currentStock) ∧
        (add_bill_item db uid billId productId qty).2 = db) ∧
    (∀ (db : DB) (uid billId productId : Nat) (qty : Int)
        (bill : Bill) (product : Product), 0 < qty →
        findBill db uid billId = some bill →
        findProduct db uid productId = some product →
        (db.billItems.map (·.id)).Nodup →
        (itemsFor db billId productId).length ≤ 1 →
        existingQty db billId productId + qty ≤ product.currentStock →
        (add_bill_item db uid billId productId qty).1 = .ok () ∧
        (add_bill_item db uid billId productId qty).2.products = db.products ∧
        (∃ it',
          itemsFor (add_bill_item db uid billId productId qty).2
              billId productId = [it'] ∧
          it'.quantity = existingQty db billId productId + qty ∧
          it'.totalPrice = itemTotal it'.sellingPrice it'.quantity it'.discount) ∧
        (∃ b',
          (add_bill_item db uid billId productId qty).2.bills
              = setBill db.bills b' ∧
          b'.id = bill.id ∧
          b'.subtotal = ((itemsOf (add_bill_item db uid billId productId qty).2
              billId).map (·.totalPrice)).sum ∧
          b'.totalAmount = b'.subtotal + b'.taxAmount - b'.discountAmount)) := by
  refine ⟨?_, ?_, ?_⟩
  · intro db uid billId productId qty hq
    simp only [add_bill_item]
    rw [if_pos hq]
  · intro db uid billId productId qty bill product hq hb hp hlt
    simp only [add_bill_item]
    rw [if_neg (not_le.mpr hq), hb, hp]
    cases hf : db.billItems.find?
        (fun it => it.billId == billId && it.productId == productId) with
    | some e =>
      have hcond : product.currentStock < e.quantity + qty := by
        simpa [existingQty, hf] using hlt
      simp only [hcond, if_true]
      exact ⟨trivial, trivial⟩
    | none =>
      have hcond : product.currentStock < qty := by
        simpa [existingQty, hf] using hlt
      simp only [hcond, if_true]
      exact ⟨trivial, trivial⟩
  · intro db uid billId productId qty bill product hq hb hp hnd hlen hle
    simp only [add_bill_item]
    rw [if_neg (not_le.mpr hq), hb, hp]
    cases hf : db.billItems.find?
        (fun it => it.billId == billId && it.productId == productId) with
    | some e =>
      have hpe := List.find?_some hf
      have hcond : ¬ product.currentStock < e.quantity + qty := by
        refine not_lt.mpr ?_
        simpa [existingQty, hf] using hle
      simp only [hcond, if_false]
      refine ⟨trivial, trivial, ?_, ?_⟩
      · refine ⟨{ e with
          quantity := e.quantity + qty
          totalPrice := itemTotal e.sellingPrice (e.quantity + qty) e.discount },
          ?_, by simp [existingQty, hf], rfl⟩
        exact filter_map_update db.billItems _ e _ hnd
          (filter_eq_singleton_of_find? db.billItems _ e hf hlen) hpe
      · exact ⟨_, rfl, rfl, rfl, rfl⟩
    | none =>
      have hcond : ¬ product.currentStock < qty := by
        refine not_lt.mpr ?_
        simpa [existingQty, hf] using hle
      simp only [hcond, if_false]
      refine ⟨trivial, trivial, ?_, ?_⟩
      · refine ⟨{ id := freshItemId db, billId := billId, productId := productId, quantity := qty, sellingPrice := product.sellingPrice, discount := 0, totalPrice := itemTotal product.sellingPrice qty 0 },
          ?_, by simp [existingQty, hf], rfl⟩
        exact filter_append_of_find?_none db.billItems _ _ hf (by simp)
      · exact ⟨_, rfl, rfl, rfl, rfl⟩

/-- Witness for `add_bill_item_spec` at the fixture database: a zero
quantity is rejected; 4 more soaps on bill 1 (2 already there, 5 in stock)
are rejected for stock; 3 more succeed, merging into one row of 5. -/
theorem add_bill_item_spec_witness :
    (add_bill_item Fixture.db 1 1 1 0
        = (.error .quantityNotPositive, Fixture.db)) ∧
    ((add_bill_item Fixture.db 1 1 1 4).1
        = .error (.insufficientStock "Soap" 5) ∧
      (add_bill_item Fixture.db 1 1 1 4).2 = Fixture.db) ∧
    ((add_bill_item Fixture.db 1 1 1 3).1 = .ok () ∧
      (add_bill_item Fixture.db 1 1 1 3).2.products = Fixture.db.products ∧
      (∃ it', itemsFor (add_bill_item Fixture.db 1 1 1 3).2 1 1 = [it'] ∧
        it'.quantity = existingQty Fixture.db 1 1 + 3 ∧
        it'.totalPrice = itemTotal it'.sellingPrice it'.quantity it'.discount) ∧
      (∃ b', (add_bill_item Fixture.db 1 1 1 3).2.bills
            = setBill Fixture.db.bills b' ∧
        b'.id = Fixture.draftBill.id ∧
        b'.subtotal = ((itemsOf (add_bill_item Fixture.db 1 1 1 3).2 1).map
            (·.totalPrice)).sum ∧
        b'.totalAmount = b'.subtotal + b'.taxAmount - b'.discountAmount)) := by
  obtain ⟨h1, h2, h3⟩ := add_bill_item_spec
  exact ⟨h1 Fixture.db 1 1 1 0 (by norm_num),
    h2 Fixture.db 1 1 1 4 Fixture.draftBill Fixture.soap (by norm_num)
      (by decide) (by decide) (by decide),
    h3 Fixture.db 1 1 1 3 Fixture.draftBill Fixture.soap (by norm_num)
      (by decide) (by decide) (by decide) (by decide) (by decide)⟩

/-! ## C6 — totals are recomputed on every mutation -/

/-- Every line's stored total is the live recomputation
`selling_price * quantity - discount`. -/
def itemsConsistent (items : List BillItem) : Prop :=
  ∀ it ∈ items, it.totalPrice = itemTotal it.sellingPrice it.quantity it.discount

/-- The bill's stored totals are the live recomputation from its current
items and adjustments. -/
def totalsOK (db : DB) (b : Bill) : Prop :=
  b.subtotal = ((itemsOf db b.id).map (·.totalPrice)).sum ∧
  b.totalAmount = b.subtotal + b.taxAmount - b.discountAmount

/-- `calculate_totals` always leaves the stored totals equal to their live
recomputation over the state it was computed against. -/
theorem totalsOK_calc (db' : DB) (bill : Bill) (key : Nat)
    (hid : bill.id = key) :
    totalsOK db'
      (calculateTotals bill
        (db'.billItems.filter (fun it => it.billId == key))) := by
  unfold totalsOK calculateTotals itemsOf
  refine ⟨?_, ?_⟩
  · simp [hid]
  · simp

/-- C6: after every successful item mutation — `add_bill_item`,
`update_bill_item`, `remove_bill_item` — and after every discount/tax
update via `update_bill_meta`, the touched bill's stored `subtotal` equals
the sum of its then-current lines' totals and `totalAmount` equals
`subtotal + taxAmount - discountAmount`; per-line totals stay the live
`sellingPrice * quantity - discount` recomputation.  In particular the
recomputation after `remove_bill_item` excludes the deleted row. -/
theorem totals_recomputed_on_mutation :
    (∀ (db : DB) (uid billId productId : Nat) (qty : Int),
        itemsConsistent db.billItems →
        (add_bill_item db uid billId productId qty).1 = .ok () →
        itemsConsistent (add_bill_item db uid billId productId qty).2.billItems ∧
        ∃ b', (add_bill_item db uid billId productId qty).2.bills
            = setBill db.bills b' ∧
          totalsOK (add_bill_item db uid billId productId qty).2 b') ∧
    (∀ (db : DB) (uid itemId : Nat) (qty : Int),
        itemsConsistent db.billItems →
        (update_bill_item db uid itemId qty).1 = .ok () →
        itemsConsistent (update_bill_item db uid itemId qty).2.billItems ∧
        ∃ b', (update_bill_item db uid itemId qty).2.bills
            = setBill db.bills b' ∧
          totalsOK (update_bill_item db uid itemId qty).2 b') ∧
    (∀ (db : DB) (uid itemId : Nat),
        itemsConsistent db.billItems →
        (remove_bill_item db uid itemId).1 = .ok () →
        itemsConsistent (remove_bill_item db uid itemId).2.billItems ∧
        ∃ b', (remove_bill_item db uid itemId).2.bills
            = setBill db.bills b' ∧
          totalsOK (remove_bill_item db uid itemId).2 b') ∧
    (∀ (db : DB) (uid billId : Nat) (disc tax : Rat),
        itemsConsistent db.billItems →
        (update_bill_meta db uid billId disc tax).1 = .ok () →
        itemsConsistent (update_bill_meta db uid billId disc tax).2.billItems ∧
        ∃ b', (update_bill_meta db uid billId disc tax).2.bills
            = setBill db.bills b' ∧
          totalsOK (update_bill_meta db uid billId disc tax).2 b') := by
  refine ⟨?_, ?_, ?_, ?_⟩
  · -- add_bill_item
    intro db uid billId productId qty hcons hok
    by_cases hq : qty ≤ 0
    · exfalso; simp [add_bill_item, hq] at hok
    · cases hb : findBill db uid billId with
      | none => exfalso; simp [add_bill_item, hq, hb] at hok
      | some bill =>
        cases hp : findProduct db uid productId with
        | none => exfalso; simp [add_bill_item, hq, hb, hp] at hok
        | some product =>
          have hbid : bill.id = billId := by
            have hp1 := List.find?_some (p := fun b : Bill =>
              b.id == billId && b.userId == uid) (by simpa [findBill] using hb)
            simp only [Bool.and_eq_true, beq_iff_eq] at hp1
            exact hp1.1
          cases hf : db.billItems.find?
              (fun it => it.billId == billId && it.productId == productId) with
          | some e =>
            by_cases hst : product.currentStock < e.quantity + qty
            · exfalso; simp [add_bill_item, hq, hb, hp, hf, hst] at hok
            · simp only [add_bill_item, hq, hb, hp, hf, hst, if_false,
                ite_false]
              refine ⟨?_, ⟨_, rfl, ?_⟩⟩
              · intro it hmem
                rw [List.mem_map] at hmem
                obtain ⟨src, hsrc, rfl⟩ := hmem
                by_cases hi : (src.id == e.id) = true
                · rw [if_pos hi]
                · rw [if_neg hi]
                  exact hcons src hsrc
              · exact totalsOK_calc _ bill billId hbid
          | none =>
            by_cases hst : product.currentStock < qty
            · exfalso; simp [add_bill_item, hq, hb, hp, hf, hst] at hok
            · simp only [add_bill_item, hq, hb, hp, hf, hst, if_false,
                ite_false]
              refine ⟨?_, ⟨_, rfl, ?_⟩⟩
              · intro it hmem
                rw [List.mem_append] at hmem
                cases hmem with
                | inl h => exact hcons it h
                | inr h =>
                  have : it = { id := freshItemId db, billId := billId, productId := productId, quantity := qty, sellingPrice := product.sellingPrice, discount := 0, totalPrice := itemTotal product.sellingPrice qty 0 } := by
                    simpa using h
                  rw [this]
              · exact totalsOK_calc _ bill billId hbid
  · -- update_bill_item
    intro db uid itemId qty hcons hok
    cases hi : db.billItems.find? (fun it => it.id == itemId) with
    | none => exfalso; simp [update_bill_item, hi] at hok
    | some item =>
      cases hb : db.bills.find?
          (fun b => b.id == item.billId && b.userId == uid) with
      | none => exfalso; simp [update_bill_item, hi, hb] at hok
      | some bill =>
        by_cases hq : qty ≤ 0
        · simp only [update_bill_item, hi, hb, hq, if_true, ite_true]
          refine ⟨?_, ⟨_, rfl, ?_⟩⟩
          · intro it hmem
            exact hcons it (List.mem_filter.mp hmem).1
          · exact totalsOK_calc _ bill bill.id rfl
        · cases hpr : db.products.find? (fun p => p.id == item.productId) with
          | none => exfalso; simp [update_bill_item, hi, hb, hq, hpr] at hok
          | some product =>
            by_cases hst : product.currentStock < qty
            · exfalso
              simp [update_bill_item, hi, hb, hq, hpr, hst] at hok
            · simp only [update_bill_item, hi, hb, hq, hpr, hst, if_false,
                ite_false]
              refine ⟨?_, ⟨_, rfl, ?_⟩⟩
              · intro it hmem
                rw [List.mem_map] at hmem
                obtain ⟨src, hsrc, rfl⟩ := hmem
                by_cases hsi : (src.id == itemId) = true
                · rw [if_pos hsi]
                · rw [if_neg hsi]
                  exact hcons src hsrc
              · exact totalsOK_calc _ bill bill.id rfl
  · -- remove_bill_item
    intro db uid itemId hcons hok
    cases hi : db.billItems.find? (fun it => it.id == itemId) with
    | none => exfalso; simp [remove_bill_item, hi] at hok
    | some item =>
      cases hb : db.bills.find?
          (fun b => b.id == item.billId && b.userId == uid) with
      | none => exfalso; simp [remove_bill_item, hi, hb] at hok
      | some bill =>
        simp only [remove_bill_item, hi, hb]
        refine ⟨?_, ⟨_, rfl, ?_⟩⟩
        · intro it hmem
          exact hcons it (List.mem_filter.mp hmem).1
        · exact totalsOK_calc _ bill bill.id rfl
  · -- update_bill_meta
    intro db uid billId disc tax hcons hok
    cases hb : findBill db uid billId with
    | none => exfalso; simp [update_bill_meta, hb] at hok
    | some bill =>
      have hbid : bill.id = billId := by
        have hp1 := List.find?_some (p := fun b : Bill =>
          b.id == billId && b.userId == uid) (by simpa [findBill] using hb)
        simp only [Bool.and_eq_true, beq_iff_eq] at hp1
        exact hp1.1
      simp only [update_bill_meta, hb]
      refine ⟨hcons, ⟨_, rfl, ?_⟩⟩
      exact totalsOK_calc _ { bill with
        discountAmount := disc, taxAmount := tax } billId hbid

/-- Witness for `totals_recomputed_on_mutation`: on the fixture database,
add one oil to bill 1, set line 1 to quantity 4, remove line 1, and set
bill 1's discount to 5 and tax to 2. -/
theorem totals_recomputed_on_mutation_witness :
    (itemsConsistent (add_bill_item Fixture.db 1 1 2 1).2.billItems ∧
      ∃ b', (add_bill_item Fixture.db 1 1 2 1).2.bills
          = setBill Fixture.db.bills b' ∧
        totalsOK (add_bill_item Fixture.db 1 1 2 1).2 b') ∧
    (itemsConsistent (update_bill_item Fixture.db 1 1 4).2.billItems ∧
      ∃ b', (update_bill_item Fixture.db 1 1 4).2.bills
          = setBill Fixture.db.bills b' ∧
        totalsOK (update_bill_item Fixture.db 1 1 4).2 b') ∧
    (itemsConsistent (remove_bill_item Fixture.db 1 1).2.billItems ∧
      ∃ b', (remove_bill_item Fixture.db 1 1).2.bills
          = setBill Fixture.db.bills b' ∧
        totalsOK (remove_bill_item Fixture.db 1 1).2 b') ∧
    (itemsConsistent (update_bill_meta Fixture.db 1 1 5 2).2.billItems ∧
      ∃ b', (update_bill_meta Fixture.db 1 1 5 2).2.bills
          = setBill Fixture.db.bills b' ∧
        totalsOK (update_bill_meta Fixture.db 1 1 5 2).2 b') := by
  obtain ⟨h1, h2, h3, h4⟩ := totals_recomputed_on_mutation
  have hcons : itemsConsistent Fixture.db.billItems := by
    intro it hit
    fin_cases hit <;> norm_num [Fixture.item1, Fixture.item2, itemTotal]
  exact ⟨h1 Fixture.db 1 1 2 1 hcons (by decide),
    h2 Fixture.db 1 1 4 hcons (by decide),
    h3 Fixture.db 1 1 hcons (by decide),
    h4 Fixture.db 1 1 5 2 hcons (by decide)⟩

/-! ## C7 — the StockMovement audit invariant -/

/-- The invariant exactly as the claim states it: every movement is `IN`
with `newStock = previousStock + quantity` or `OUT` with
`newStock = previousStock - quantity`. -/
def movementOK (m : StockMovement) : Prop :=
  (m.movementType = "IN" ∧ m.newStock = m.previousStock + m.quantity) ∨
  (m.movementType = "OUT" ∧ m.newStock = m.previousStock - m.quantity)

/-- The invariant the code actually maintains: `adjust_stock` also writes
rows whose movement type is the literal `SET` (with `newStock = quantity`)
and floors `OUT` at zero, so an `OUT` row records
`newStock = max 0 (previousStock - quantity)`. -/
def movementOKAmended (m : StockMovement) : Prop :=
  (m.movementType = "IN" ∧ m.newStock = m.previousStock + m.quantity) ∨
  (m.movementType = "OUT" ∧
    (m.newStock = m.previousStock - m.quantity ∨
      m.newStock = max 0 (m.previousStock - m.quantity))) ∨
  (m.movementType = "SET" ∧ m.newStock = m.quantity)

/-- C7 counterexample: a `SET` adjustment on product 1 (stock 5 set to 7)
writes a movement whose type is the literal string `SET` — outside
`{IN, OUT}` — refuting the claimed invariant. -/
theorem adjust_stock_set_movement_violates :
    (adjust_stock Fixture.db 1 1 "SET" 7 "stock audit").2.movements
      = Fixture.db.movements ++
        [{ productId := 1, userId := 1, movementType := "SET", quantity := 7, previousStock := 5, newStock := 7, price := 15, referenceType := "ADJUSTMENT", referenceId := none, reason := "stock audit" }] ∧
    ¬ movementOK
        { productId := 1, userId := 1, movementType := "SET", quantity := 7, previousStock := 5, newStock := 7, price := 15, referenceType := "ADJUSTMENT", referenceId := none, reason := "stock audit" } := by
  constructor
  · decide
  · unfold movementOK
    decide

/-- Every movement emitted by the completion loop is an exact `OUT` row
referencing the sale. -/
theorem completeItems_movements_ok (uid billId : Nat) :
    ∀ (items : List BillItem) (products : List Product)
      (ps : List Product) (ms : List StockMovement),
      completeItems uid billId items products = .ok (ps, ms) →
      ∀ m ∈ ms, movementOK m ∧ m.referenceType = "SALE" := by
  intro items
  induction items with
  | nil =>
    intro products ps ms h m hm
    simp only [completeItems, Except.ok.injEq, Prod.mk.injEq] at h
    rw [← h.2] at hm
    cases hm
  | cons it rest ih =>
    intro products ps ms h m hm
    simp only [completeItems] at h
    cases hf : products.find? (fun p => p.id == it.productId) with
    | none => simp only [hf] at h; cases h
    | some product =>
      simp only [hf] at h
      by_cases hlt : product.currentStock < it.quantity
      · rw [if_pos hlt] at h; cases h
      · rw [if_neg hlt] at h
        cases hrec : completeItems uid billId rest
            (setProduct products
              { product with
                currentStock := product.currentStock - it.quantity }) with
        | error e => rw [hrec] at h; cases h
        | ok pair =>
          obtain ⟨ps', ms'⟩ := pair
          rw [hrec] at h
          simp only [Except.ok.injEq, Prod.mk.injEq] at h
          rw [← h.2] at hm
          cases hm with
          | head =>
            refine ⟨Or.inr ⟨rfl, ?_⟩, rfl⟩
            simp
          | tail _ htl =>
            exact ih _ ps' ms' hrec m htl

/-- C7 (amended): every movement appended by product creation, the
product-edit stock adjustment, or sale completion is an `IN` or `OUT` row
with the exact arithmetic `newStock = previousStock ± quantity` (sale rows
additionally carry `referenceType = SALE`); movements appended by
`adjust_stock` satisfy the amended invariant, which also admits the `SET`
type (`newStock = quantity`) and the zero-floored `OUT`
(`newStock = max 0 (previousStock - quantity)`). -/
theorem stock_movement_invariant_amended :
    (∀ (db : DB) (uid : Nat) (barcode name : String) (pp sp : Rat)
        (stock : Int),
        ∀ m ∈ (add_product db uid barcode name pp sp stock).2.movements,
          m ∈ db.movements ∨ movementOK m) ∧
    (∀ (db : DB) (uid productId : Nat) (newStock : Int),
        ∀ m ∈ (edit_product_stock db uid productId newStock).2.movements,
          m ∈ db.movements ∨ movementOK m) ∧
    (∀ (db : DB) (uid billId : Nat) (pm : String) (ap : Rat),
        ∀ m ∈ (complete_bill db uid billId pm ap).2.movements,
          m ∈ db.movements ∨ (movementOK m ∧ m.referenceType = "SALE")) ∧
    (∀ (db : DB) (uid productId : Nat) (mt : String) (qty : Int)
        (reason : String),
        ∀ m ∈ (adjust_stock db uid productId mt qty reason).2.movements,
          m ∈ db.movements ∨ movementOKAmended m) := by
  refine ⟨?_, ?_, ?_, ?_⟩
  · -- add_product
    intro db uid barcode name pp sp stock m hm
    simp only [add_product] at hm
    cases hex : db.products.find?
        (fun p => p.barcode == barcode && p.userId == uid) with
    | some ex => simp only [hex] at hm; exact Or.inl hm
    | none =>
      simp only [hex] at hm
      by_cases hany : (db.products.any (fun p => p.barcode == barcode)) = true
      · rw [if_pos hany] at hm
        exact Or.inl hm
      · rw [if_neg hany] at hm
        by_cases hpos : stock > 0
        · rw [if_pos hpos] at hm
          rcases List.mem_append.mp hm with hin | hnew
          · exact Or.inl hin
          · refine Or.inr (Or.inl ⟨?_, ?_⟩)
            · rw [List.mem_singleton.mp hnew]
            · rw [List.mem_singleton.mp hnew]
              simp
        · rw [if_neg hpos] at hm
          exact Or.inl hm
  · -- edit_product (stock-adjustment branch)
    intro db uid productId newStock m hm
    simp only [edit_product_stock] at hm
    cases hp : findProduct db uid productId with
    | none => simp only [hp] at hm; exact Or.inl hm
    | some product =>
      simp only [hp] at hm
      by_cases hsame : (newStock == product.currentStock) = true
      · rw [if_pos hsame] at hm
        exact Or.inl hm
      · rw [if_neg hsame] at hm
        rcases List.mem_append.mp hm with hin | hnew
        · exact Or.inl hin
        · rw [List.mem_singleton.mp hnew]
          have hne : newStock ≠ product.currentStock := by simpa using hsame
          by_cases hd : newStock - product.currentStock > 0
          · refine Or.inr (Or.inl ⟨by simp [hd], ?_⟩)
            show newStock = product.currentStock + |newStock - product.currentStock|
            rw [abs_of_pos hd]
            omega
          · refine Or.inr (Or.inr ⟨by simp [hd], ?_⟩)
            show newStock = product.currentStock - |newStock - product.currentStock|
            rw [abs_of_nonpos (by omega)]
            omega
  · -- complete_bill
    intro db uid billId pm ap m hm
    simp only [complete_bill] at hm
    by_cases hneg : ap < 0
    · rw [if_pos hneg] at hm; exact Or.inl hm
    · rw [if_neg hneg] at hm
      cases hb : findBill db uid billId with
      | none => simp only [hb] at hm; exact Or.inl hm
      | some bill =>
        simp only [hb] at hm
        by_cases hc : (bill.status == "COMPLETED") = true
        · simp only [hc, if_true] at hm
          exact Or.inl hm
        · simp only [hc, Bool.false_eq_true, if_false] at hm
          by_cases he : (itemsOf db billId).isEmpty = true
          · rw [if_pos he] at hm
            exact Or.inl hm
          · rw [if_neg he] at hm
            cases hrec : completeItems uid billId (itemsOf db billId)
                db.products with
            | error e => simp only [hrec] at hm; exact Or.inl hm
            | ok pair =>
              obtain ⟨ps', ms'⟩ := pair
              simp only [hrec] at hm
              rcases List.mem_append.mp hm with hin | hnew
              · exact Or.inl hin
              · exact Or.inr
                  (completeItems_movements_ok uid billId _ _ _ _ hrec m hnew)
  · -- adjust_stock
    intro db uid productId mt qty reason m hm
    simp only [adjust_stock] at hm
    cases hp : findProduct db uid productId with
    | none => simp only [hp] at hm; exact Or.inl hm
    | some product =>
      simp only [hp] at hm
      by_cases hq : qty ≤ 0
      · rw [if_pos hq] at hm
        exact Or.inl hm
      · rw [if_neg hq] at hm
        have habs : |qty| = qty := abs_of_pos (by omega)
        by_cases hin : (mt == "IN") = true
        · simp only [hin, if_true] at hm
          rcases List.mem_append.mp hm with hold | hnew
          · exact Or.inl hold
          · rw [List.mem_singleton.mp hnew]
            exact Or.inr (Or.inl ⟨by simpa using hin, by simp [habs]⟩)
        · simp only [hin, Bool.false_eq_true, if_false] at hm
          by_cases hout : (mt == "OUT") = true
          · simp only [hout, if_true] at hm
            rcases List.mem_append.mp hm with hold | hnew
            · exact Or.inl hold
            · rw [List.mem_singleton.mp hnew]
              exact Or.inr (Or.inr (Or.inl ⟨by simpa using hout,
                Or.inr (by simp [habs])⟩))
          · simp only [hout, Bool.false_eq_true, if_false] at hm
            by_cases hset : (mt == "SET") = true
            · simp only [hset, if_true] at hm
              rcases List.mem_append.mp hm with hold | hnew
              · exact Or.inl hold
              · rw [List.mem_singleton.mp hnew]
                exact Or.inr (Or.inr (Or.inr ⟨by simpa using hset,
                  by simp [habs]⟩))
            · simp only [hset, Bool.false_eq_true, if_false] at hm
              exact Or.inl hm

/-- Witness for `stock_movement_invariant_amended`: the rows appended by
creating product "Rice" with 3 in stock, editing product 2's stock to 0,
completing bill 1, and an oversized `OUT` adjustment on product 1. -/
theorem stock_movement_invariant_amended_witness :
    ({ productId := 3, userId := 1, movementType := "IN", quantity := 3, previousStock := 0, newStock := 3, price := 40, referenceType := "PURCHASE", referenceId := none, reason := "Initial stock entry" }
        ∈ Fixture.db.movements ∨
      movementOK { productId := 3, userId := 1, movementType := "IN", quantity := 3, previousStock := 0, newStock := 3, price := 40, referenceType := "PURCHASE", referenceId := none, reason := "Initial stock entry" }) ∧
    ({ productId := 2, userId := 1, movementType := "OUT", quantity := 2, previousStock := 2, newStock := 0, price := 50, referenceType := "ADJUSTMENT", referenceId := none, reason := "Manual stock adjustment" }
        ∈ Fixture.db.movements ∨
      movementOK { productId := 2, userId := 1, movementType := "OUT", quantity := 2, previousStock := 2, newStock := 0, price := 50, referenceType := "ADJUSTMENT", referenceId := none, reason := "Manual stock adjustment" }) ∧
    ({ productId := 1, userId := 1, movementType := "OUT", quantity := 2, previousStock := 5, newStock := 3, price := 15, referenceType := "SALE", referenceId := some "1", reason := "Product sale" }
        ∈ Fixture.db.movements ∨
      (movementOK { productId := 1, userId := 1, movementType := "OUT", quantity := 2, previousStock := 5, newStock := 3, price := 15, referenceType := "SALE", referenceId := some "1", reason := "Product sale" } ∧
        ({ productId := 1, userId := 1, movementType := "OUT", quantity := 2, previousStock := 5, newStock := 3, price := 15, referenceType := "SALE", referenceId := some "1", reason := "Product sale" } : StockMovement).referenceType = "SALE")) ∧
    ({ productId := 1, userId := 1, movementType := "OUT", quantity := 20, previousStock := 5, newStock := 0, price := 15, referenceType := "ADJUSTMENT", referenceId := none, reason := "damage" }
        ∈ Fixture.db.movements ∨
      movementOKAmended { productId := 1, userId := 1, movementType := "OUT", quantity := 20, previousStock := 5, newStock := 0, price := 15, referenceType := "ADJUSTMENT", referenceId := none, reason := "damage" }) := by
  obtain ⟨h1, h2, h3, h4⟩ := stock_movement_invariant_amended
  exact ⟨h1 Fixture.db 1 "B7" "Rice" 40 55 3 _ (by decide),
    h2 Fixture.db 1 2 0 _ (by decide),
    h3 Fixture.db 1 1 "CASH" 30 _ (by decide),
    h4 Fixture.db 1 1 "OUT" 20 "damage" _ (by decide)⟩

/-! ## C8 — adjust_stock semantics and replay -/

/-- The per-call stock update of `adjust_stock`, one step of a replay:
`IN` adds, `OUT` floors at 0, `SET` replaces absolutely. -/
def stepStock (stock : Int) (op : String × Int) : Int :=
  if op.1 == "IN" then stock + op.2
  else if op.1 == "OUT" then max 0 (stock - op.2)
  else if op.1 == "SET" then op.2
  else stock

/-- Sum of the quantities of the `IN` adjustments. -/
def sumIN (ops : List (String × Int)) : Int :=
  ((ops.filter (fun op => op.1 == "IN")).map (·.2)).sum

/-- Sum of the quantities of the `OUT` adjustments. -/
def sumOUT (ops : List (String × Int)) : Int :=
  ((ops.filter (fun op => op.1 == "OUT")).map (·.2)).sum

/-- Replaying a sequence of `adjust_stock` calls against one product. -/
def replayAdjust (db : DB) (uid productId : Nat)
    (ops : List (String × Int)) : DB :=
  ops.foldl
    (fun d op => (adjust_stock d uid productId op.1 op.2 "replay").2) db

theorem sumIN_cons (op : String × Int) (rest : List (String × Int)) :
    sumIN (op :: rest)
      = (if op.1 == "IN" then op.2 else 0) + sumIN rest := by
  by_cases h : (op.1 == "IN") = true
  · simp [sumIN, List.filter_cons_of_pos h, h]
  · simp [sumIN, List.filter_cons_of_neg h, h]

theorem sumOUT_cons (op : String × Int) (rest : List (String × Int)) :
    sumOUT (op :: rest)
      = (if op.1 == "OUT" then op.2 else 0) + sumOUT rest := by
  by_cases h : (op.1 == "OUT") = true
  · simp [sumOUT, List.filter_cons_of_pos h, h]
  · simp [sumOUT, List.filter_cons_of_neg h, h]

/-- One `adjust_stock` call, on the product table only: the stock moves by
one `stepStock` step. -/
theorem adjust_stock_products (db : DB) (uid productId : Nat)
    (op : String × Int) (reason : String) (product : Product)
    (hf : findProduct db uid productId = some product) (hq : 0 < op.2)
    (hty : op.1 = "IN" ∨ op.1 = "OUT" ∨ op.1 = "SET") :
    (adjust_stock db uid productId op.1 op.2 reason).2.products
      = setProduct db.products
          { product with currentStock := stepStock product.currentStock op } := by
  rcases hty with h | h | h <;>
    simp [adjust_stock, hf, not_le.mpr hq, stepStock, h]

/-- Replay is the fold of `stepStock` over the product's stock. -/
theorem replayAdjust_foldl (uid productId : Nat) :
    ∀ (ops : List (String × Int)) (db : DB) (product : Product),
      findProduct db uid productId = some product →
      (db.products.map (·.id)).Nodup →
      (∀ op ∈ ops, 0 < op.2 ∧
        (op.1 = "IN" ∨ op.1 = "OUT" ∨ op.1 = "SET")) →
      findProduct (replayAdjust db uid productId ops) uid productId
        = some { product with
            currentStock := ops.foldl stepStock product.currentStock } := by
  intro ops
  induction ops with
  | nil =>
    intro db product hf _ _
    simpa [replayAdjust] using hf
  | cons op rest ih =>
    intro db product hf hnd hops
    obtain ⟨hq, hty⟩ := hops op (by simp)
    have hpred := List.find?_some (p := fun p : Product =>
      p.id == productId && p.userId == uid) (by simpa [findProduct] using hf)
    have hprods := adjust_stock_products db uid productId op "replay"
      product hf hq hty
    have hf' : findProduct (adjust_stock db uid productId op.1 op.2
        "replay").2 uid productId
        = some { product with currentStock := stepStock product.currentStock op } := by
      unfold findProduct
      rw [hprods]
      exact find?_setProduct db.products _ product _
        (by simpa [findProduct] using hf) hpred rfl
    have hnd' : ((adjust_stock db uid productId op.1 op.2
        "replay").2.products.map (·.id)).Nodup := by
      rw [hprods, map_id_setProduct]
      exact hnd
    have := ih (adjust_stock db uid productId op.1 op.2 "replay").2
      { product with currentStock := stepStock product.currentStock op }
      hf' hnd' (fun o ho => hops o (by simp [ho]))
    simpa [replayAdjust, List.foldl_cons] using this

/-- With only `IN` and `OUT` steps and no step ever flooring at zero, the
fold is the signed sum. -/
theorem foldl_stepStock_sum :
    ∀ (ops : List (String × Int)) (init : Int),
      (∀ op ∈ ops, op.1 = "IN" ∨ op.1 = "OUT") →
      (∀ n, 0 ≤ init + sumIN (ops.take n) - sumOUT (ops.take n)) →
      ops.foldl stepStock init = init + sumIN ops - sumOUT ops := by
  intro ops
  induction ops with
  | nil =>
    intro init _ _
    simp [sumIN, sumOUT]
  | cons op rest ih =>
    intro init hty hpre
    rcases hty op (by simp) with hin | hout
    · have hstep : stepStock init op = init + op.2 := by
        simp [stepStock, hin]
      have hs1 : sumIN (op :: rest) = op.2 + sumIN rest := by
        rw [sumIN_cons]
        simp [hin]
      have hs2 : sumOUT (op :: rest) = sumOUT rest := by
        rw [sumOUT_cons]
        simp [hin]
      rw [List.foldl_cons, hstep, ih (init + op.2)
        (fun o ho => hty o (by simp [ho])) ?_, hs1, hs2]
      · ring
      · intro n
        have hp := hpre (n + 1)
        rw [List.take_succ_cons, sumIN_cons, sumOUT_cons] at hp
        simp only [hin] at hp
        have : ("IN" == "OUT") = false := by decide
        rw [this] at hp
        simp at hp
        omega
    · have hle : op.2 ≤ init := by
        have hp := hpre 1
        rw [List.take_succ_cons, List.take_zero, sumIN_cons, sumOUT_cons]
          at hp
        simp only [hout] at hp
        have : ("OUT" == "IN") = false := by decide
        rw [this] at hp
        simp [sumIN, sumOUT] at hp
        omega
      have hstep : stepStock init op = init - op.2 := by
        simp only [stepStock, hout]
        have h1 : ("OUT" == "IN") = false := by decide
        rw [h1]
        simp only [Bool.false_eq_true, if_false, beq_self_eq_true, if_true]
        omega
      have hs1 : sumIN (op :: rest) = sumIN rest := by
        rw [sumIN_cons]
        simp [hout]
      have hs2 : sumOUT (op :: rest) = op.2 + sumOUT rest := by
        rw [sumOUT_cons]
        simp [hout]
      rw [List.foldl_cons, hstep, ih (init - op.2)
        (fun o ho => hty o (by simp [ho])) ?_, hs1, hs2]
      · ring
      · intro n
        have hp := hpre (n + 1)
        rw [List.take_succ_cons, sumIN_cons, sumOUT_cons] at hp
        simp only [hout] at hp
        have : ("OUT" == "IN") = false := by decide
        rw [this] at hp
        simp at hp
        omega

/-- A trailing `SET v` step makes the fold exactly `v`. -/
theorem foldl_stepStock_set (ops : List (String × Int)) (init v : Int) :
    (ops ++ [("SET", v)]).foldl stepStock init = v := by
  rw [List.foldl_append]
  simp [stepStock]

/-- C8 counterexample: replaying `OUT 20` then `IN 5` on product 1 (stock
5) leaves stock 5 — the `OUT` floored at 0 and the later `IN` rebuilt
from there — while the claimed formula
`initialStock + Σ(IN) - Σ(OUT)`, clipped or not, yields -10 or 0. -/
theorem adjust_replay_sum_formula_fails :
    findProduct (replayAdjust Fixture.db 1 1 [("OUT", 20), ("IN", 5)]) 1 1
      = some { Fixture.soap with currentStock := 5 } ∧
    Fixture.soap.currentStock + sumIN [("OUT", 20), ("IN", 5)]
        - sumOUT [(("OUT" : String), (20 : Int)), ("IN", 5)] ≠ 5 ∧
    max 0 (Fixture.soap.currentStock + sumIN [("OUT", 20), ("IN", 5)]
        - sumOUT [(("OUT" : String), (20 : Int)), ("IN", 5)]) ≠ 5 := by
  refine ⟨by decide, by decide, by decide⟩

/-- C8 (amended): a positive-quantity `adjust_stock` sets the stock to
`previous + qty` (`IN`), `max 0 (previous - qty)` (`OUT`) or exactly `qty`
(`SET`), writing one movement recording the previous and new stock, and
rejects `qty ≤ 0`; a replay of `IN`/`OUT` calls equals
`initialStock + Σ(IN) - Σ(OUT)` whenever no `OUT` step floors at zero, and
a replay ending in `SET v` leaves exactly `v` — the unrestricted signed-sum
formula of the original claim fails once flooring occurs. -/
theorem adjust_stock_semantics_amended :
    (∀ (db : DB) (uid productId : Nat) (qty : Int) (r : String)
        (product : Product),
        findProduct db uid productId = some product → 0 < qty →
        adjust_stock db uid productId "IN" qty r
          = (.ok (), { db with
              products := setProduct db.products
                { product with currentStock := product.currentStock + qty }
              movements := db.movements ++
                [{ productId := product.id, userId := uid, movementType := "IN", quantity := |qty|, previousStock := product.currentStock, newStock := product.currentStock + qty, price := product.purchasePrice, referenceType := "ADJUSTMENT", referenceId := none, reason := r }] }) ∧
        adjust_stock db uid productId "OUT" qty r
          = (.ok (), { db with
              products := setProduct db.products
                { product with
                  currentStock := max 0 (product.currentStock - qty) }
              movements := db.movements ++
                [{ productId := product.id, userId := uid, movementType := "OUT", quantity := |qty|, previousStock := product.currentStock, newStock := max 0 (product.currentStock - qty), price := product.sellingPrice, referenceType := "ADJUSTMENT", referenceId := none, reason := r }] }) ∧
        adjust_stock db uid productId "SET" qty r
          = (.ok (), { db with
              products := setProduct db.products
                { product with currentStock := qty }
              movements := db.movements ++
                [{ productId := product.id, userId := uid, movementType := "SET", quantity := |qty|, previousStock := product.currentStock, newStock := qty, price := product.sellingPrice, referenceType := "ADJUSTMENT", referenceId := none, reason := r }] })) ∧
    (∀ (db : DB) (uid productId : Nat) (qty : Int) (mt r : String),
        qty ≤ 0 →
        adjust_stock db uid productId mt qty r
          = (if (findProduct db uid productId).isSome
              then (.error .invalidQuantity, db)
              else (.error .notFound, db))) ∧
    (∀ (db : DB) (uid productId : Nat) (ops : List (String × Int))
        (product : Product),
        findProduct db uid productId = some product →
        (db.products.map (·.id)).Nodup →
        (∀ op ∈ ops, 0 < op.2 ∧ (op.1 = "IN" ∨ op.1 = "OUT")) →
        (∀ n, 0 ≤ product.currentStock + sumIN (ops.take n)
            - sumOUT (ops.take n)) →
        findProduct (replayAdjust db uid productId ops) uid productId
          = some { product with
              currentStock := product.currentStock
                + sumIN ops - sumOUT ops }) ∧
    (∀ (db : DB) (uid productId : Nat) (ops : List (String × Int)) (v : Int)
        (product : Product),
        findProduct db uid productId = some product →
        (db.products.map (·.id)).Nodup →
        (∀ op ∈ ops, 0 < op.2 ∧
          (op.1 = "IN" ∨ op.1 = "OUT" ∨ op.1 = "SET")) →
        0 < v →
        findProduct (replayAdjust db uid productId (ops ++ [("SET", v)]))
            uid productId
          = some { product with currentStock := v }) := by
  refine ⟨?_, ?_, ?_, ?_⟩
  · intro db uid productId qty r product hf hq
    refine ⟨?_, ?_, ?_⟩ <;>
      simp [adjust_stock, hf, not_le.mpr hq, Prod.ext_iff]
  · intro db uid productId qty mt r hq
    cases hf : findProduct db uid productId with
    | none => simp [adjust_stock, hf]
    | some product => simp [adjust_stock, hf, hq]
  · intro db uid productId ops product hf hnd hops hpre
    have hfold := replayAdjust_foldl uid productId ops db product hf hnd
      (fun o ho => ⟨(hops o ho).1, by
        rcases (hops o ho).2 with h | h
        · exact Or.inl h
        · exact Or.inr (Or.inl h)⟩)
    rw [hfold, foldl_stepStock_sum ops product.currentStock
      (fun o ho => (hops o ho).2) hpre]
  · intro db uid productId ops v product hf hnd hops hv
    have hops' : ∀ op ∈ ops ++ [(("SET" : String), v)], 0 < op.2 ∧
        (op.1 = "IN" ∨ op.1 = "OUT" ∨ op.1 = "SET") := by
      intro o ho
      rcases List.mem_append.mp ho with h | h
      · exact hops o h
      · have : o = ("SET", v) := by simpa using h
        rw [this]
        exact ⟨hv, Or.inr (Or.inr rfl)⟩
    have hfold := replayAdjust_foldl uid productId (ops ++ [("SET", v)])
      db product hf hnd hops'
    rw [hfold, foldl_stepStock_set]

/-- Witness for `adjust_stock_semantics_amended`: at the fixture database,
an `IN 3` on product 1, a rejected `IN 0`, a clip-free replay
`[IN 4, OUT 2]`, and a replay ending in `SET 9`. -/
theorem adjust_stock_semantics_amended_witness :
    (adjust_stock Fixture.db 1 1 "IN" 3 "restock"
      = (.ok (), { Fixture.db with
          products := setProduct Fixture.db.products
            { Fixture.soap with currentStock := Fixture.soap.currentStock + 3 }
          movements := Fixture.db.movements ++
            [{ productId := Fixture.soap.id, userId := 1, movementType := "IN", quantity := |(3 : Int)|, previousStock := Fixture.soap.currentStock, newStock := Fixture.soap.currentStock + 3, price := Fixture.soap.purchasePrice, referenceType := "ADJUSTMENT", referenceId := none, reason := "restock" }] })) ∧
    (adjust_stock Fixture.db 1 1 "IN" 0 "noop"
      = (if (findProduct Fixture.db 1 1).isSome
          then (.error .invalidQuantity, Fixture.db)
          else (.error .notFound, Fixture.db))) ∧
    (findProduct (replayAdjust Fixture.db 1 1 [("IN", 4), ("OUT", 2)]) 1 1
      = some { Fixture.soap with
          currentStock := Fixture.soap.currentStock
            + sumIN [("IN", 4), ("OUT", 2)]
            - sumOUT [(("IN" : String), (4 : Int)), ("OUT", 2)] }) ∧
    (findProduct (replayAdjust Fixture.db 1 1
          ([("IN", 4)] ++ [("SET", 9)])) 1 1
      = some { Fixture.soap with currentStock := 9 }) := by
  obtain ⟨h1, h2, h3, h4⟩ := adjust_stock_semantics_amended
  refine ⟨(h1 Fixture.db 1 1 3 "restock" Fixture.soap (by decide)
      (by norm_num)).1,
    h2 Fixture.db 1 1 0 "IN" "noop" (by norm_num),
    h3 Fixture.db 1 1 [("IN", 4), ("OUT", 2)] Fixture.soap (by decide)
      (by decide) (by decide) ?_,
    h4 Fixture.db 1 1 [("IN", 4)] 9 Fixture.soap (by decide) (by decide)
      (by decide) (by norm_num)⟩
  intro n
  match n with
  | 0 => decide
  | 1 => decide
  | (k + 2) =>
    rw [List.take_of_length_le (by simp)]
    decide

/-! ## C9 — barcode uniqueness scope -/

/-- C9 counterexample: user 2 creates a product with barcode `B1`, which
user 1 already holds.  The per-owner pre-insert check passes (user 2 has no
such product), but the schema's GLOBAL unique constraint on
`products.barcode` (`src/models.py` line 67) rejects the commit — so two
owners can NOT share a barcode. -/
theorem cross_owner_barcode_rejected :
    add_product Fixture.db 2 "B1" "OtherSoap" 8 12 4
      = (.constraintViolation, Fixture.db) := by
  decide

/-- C9 (amended): the friendly duplicate check of `add_product` is scoped
per owner — it redirects only when the caller already owns the barcode —
but the schema enforces barcode uniqueness GLOBALLY, so a second owner's
insert of an existing barcode fails at commit with a constraint violation
and writes nothing; only a globally fresh barcode creates a product. -/
theorem barcode_uniqueness_global :
    (∀ (db : DB) (uid : Nat) (barcode name : String) (pp sp : Rat)
        (stock : Int) (ex : Product),
        db.products.find?
            (fun p => p.barcode == barcode && p.userId == uid) = some ex →
        add_product db uid barcode name pp sp stock
          = (.duplicateForUser ex.id, db)) ∧
    (∀ (db : DB) (uid : Nat) (barcode name : String) (pp sp : Rat)
        (stock : Int),
        db.products.find?
            (fun p => p.barcode == barcode && p.userId == uid) = none →
        (∃ p ∈ db.products, p.barcode = barcode) →
        add_product db uid barcode name pp sp stock
          = (.constraintViolation, db)) ∧
    (∀ (db : DB) (uid : Nat) (barcode name : String) (pp sp : Rat)
        (stock : Int),
        (∀ p ∈ db.products, p.barcode ≠ barcode) →
        (add_product db uid barcode name pp sp stock).1
            = .created (freshProductId db) ∧
        (add_product db uid barcode name pp sp stock).2.products
          = db.products ++
            [{ id := freshProductId db, userId := uid, barcode := barcode, name := name, purchasePrice := pp, sellingPrice := sp, currentStock := stock }]) := by
  refine ⟨?_, ?_, ?_⟩
  · intro db uid barcode name pp sp stock ex hex
    simp [add_product, hex]
  · intro db uid barcode name pp sp stock hnone hglobal
    obtain ⟨p, hpmem, hpbar⟩ := hglobal
    have hany : (db.products.any (fun p => p.barcode == barcode)) = true :=
      List.any_eq_true.mpr ⟨p, hpmem, by simp [hpbar]⟩
    simp [add_product, hnone, hany]
  · intro db uid barcode name pp sp stock hfresh
    have hnone : db.products.find?
        (fun p => p.barcode == barcode && p.userId == uid) = none := by
      rw [List.find?_eq_none]
      intro p hp
      simp [hfresh p hp]
    have hany : (db.products.any (fun p => p.barcode == barcode)) = false := by
      rw [List.any_eq_false]
      intro p hp
      simp [hfresh p hp]
    constructor <;> simp [add_product, hnone, hany]

/-- Witness for `barcode_uniqueness_global`: user 1 re-scanning `B1` is
redirected to the existing product; user 2 creating `B1` hits the global
constraint; user 2 creating the fresh `B9` succeeds. -/
theorem barcode_uniqueness_global_witness :
    add_product Fixture.db 1 "B1" "Soap" 10 15 5
      = (.duplicateForUser Fixture.soap.id, Fixture.db) ∧
    add_product Fixture.db 2 "B1" "Soap" 10 15 5
      = (.constraintViolation, Fixture.db) ∧
    (add_product Fixture.db 2 "B9" "Salt" 9 11 6).1
      = .created (freshProductId Fixture.db) ∧
    (add_product Fixture.db 2 "B9" "Salt" 9 11 6).2.products
      = Fixture.db.products ++
        [{ id := freshProductId Fixture.db, userId := 2, barcode := "B9", name := "Salt", purchasePrice := 9, sellingPrice := 11, currentStock := 6 }] := by
  obtain ⟨h1, h2, h3⟩ := barcode_uniqueness_global
  have hw3 := h3 Fixture.db 2 "B9" "Salt" 9 11 6 (by decide)
  exact ⟨h1 Fixture.db 1 "B1" "Soap" 10 15 5 Fixture.soap (by decide),
    h2 Fixture.db 2 "B1" "Soap" 10 15 5 (by decide)
      ⟨Fixture.soap, by decide, rfl⟩,
    hw3.1, hw3.2⟩

/-! ## C10 — read-endpoint ownership -/

/-- C10 counterexample: user 2 owns nothing, yet
`get_stock_movements` hands them product 1's movement log — there is no
ownership check and no NotFound; the claim fails for this endpoint. -/
theorem stock_movements_leak_across_owners :
    get_stock_movements Fixture.db 2 1 = [Fixture.mv1] ∧
    findProduct Fixture.db 2 1 = none ∧
    Fixture.mv1.userId = 1 := by
  refine ⟨by decide, by decide, rfl⟩

/-- C10 (amended): `get_bill_items` enforces ownership — 404 exactly when
the bill is missing or foreign, line data only for owned bills — but
`get_stock_movements` ignores the caller entirely: its result is the same
for every authenticated user, it returns the newest at most 20 rows for any
product id including other owners' products, and a missing product yields
an empty list rather than NotFound. -/
theorem read_endpoint_ownership :
    (∀ (db : DB) (uid billId : Nat),
        findBill db uid billId = none →
        get_bill_items db uid billId = none) ∧
    (∀ (db : DB) (uid billId : Nat) (bill : Bill),
        findBill db uid billId = some bill →
        get_bill_items db uid billId = some (itemsOf db billId)) ∧
    (∀ (db : DB) (uid uid2 productId : Nat),
        get_stock_movements db uid productId
          = get_stock_movements db uid2 productId) ∧
    (∀ (db : DB) (uid productId : Nat),
        (∀ m ∈ db.movements, m.productId ≠ productId) →
        get_stock_movements db uid productId = []) ∧
    (∀ (db : DB) (uid productId : Nat),
        (get_stock_movements db uid productId).length ≤ 20) := by
  refine ⟨?_, ?_, ?_, ?_, ?_⟩
  · intro db uid billId hb
    simp [get_bill_items, hb]
  · intro db uid billId bill hb
    simp [get_bill_items, hb]
  · intro db uid uid2 productId
    rfl
  · intro db uid productId hno
    have : db.movements.filter (fun m => m.productId == productId) = [] := by
      rw [List.filter_eq_nil_iff]
      intro m hm
      simp [hno m hm]
    simp [get_stock_movements, this]
  · intro db uid productId
    simp [get_stock_movements]

/-- Witness for `read_endpoint_ownership`: user 2 gets a 404 for bill 1,
user 1 reads its lines, the movement endpoint answers users 1 and 2
identically, an unknown product yields `[]`, and the log is capped. -/
theorem read_endpoint_ownership_witness :
    get_bill_items Fixture.db 2 1 = none ∧
    get_bill_items Fixture.db 1 1 = some (itemsOf Fixture.db 1) ∧
    get_stock_movements Fixture.db 1 1 = get_stock_movements Fixture.db 2 1 ∧
    get_stock_movements Fixture.db 1 99 = [] ∧
    (get_stock_movements Fixture.db 2 1).length ≤ 20 := by
  obtain ⟨h1, h2, h3, h4, h5⟩ := read_endpoint_ownership
  exact ⟨h1 Fixture.db 2 1 (by decide),
    h2 Fixture.db 1 1 Fixture.draftBill (by decide),
    h3 Fixture.db 1 2 1,
    h4 Fixture.db 1 99 (by decide),
    h5 Fixture.db 2 1⟩

/-! ## C4 — bill-number generation -/

/-- The accumulator-seeded maximum fold yields the seed or a member, and it
dominates the seed and every element. -/
theorem charListLt_irrefl : ∀ (x : List Char), charListLt x x = false := by
  intro x
  induction x with
  | nil => rfl
  | cons a as ih => simp [charListLt, ih]

theorem charListLt_asymm :
    ∀ (x y : List Char), charListLt x y = true → charListLt y x = false := by
  intro x
  induction x with
  | nil =>
    intro y hy
    cases y with
    | nil => simp [charListLt] at hy
    | cons b bs => rfl
  | cons a as ih =>
    intro y hy
    cases y with
    | nil => simp [charListLt] at hy
    | cons b bs =>
      simp only [charListLt] at hy ⊢
      by_cases hab : a.toNat < b.toNat
      · rw [if_neg (by omega), if_pos hab]
      · rw [if_neg hab] at hy
        by_cases hba : b.toNat < a.toNat
        · rw [if_pos hba] at hy
          cases hy
        · rw [if_neg hba] at hy
          rw [if_neg hba, if_neg hab]
          exact ih bs hy

theorem charListLe_trans :
    ∀ (x y z : List Char), charListLt y x = false → charListLt z y = false →
      charListLt z x = false := by
  intro x
  induction x with
  | nil =>
    intro y z _ _
    cases z with
    | nil => rfl
    | cons c cs => rfl
  | cons a as ih =>
    intro y z h1 h2
    cases y with
    | nil => simp [charListLt] at h1
    | cons b bs =>
      cases z with
      | nil => simp [charListLt] at h2
      | cons c cs =>
        simp only [charListLt] at h1 h2 ⊢
        by_cases hba : b.toNat < a.toNat
        · rw [if_pos hba] at h1
          cases h1
        · rw [if_neg hba] at h1
          by_cases hcb : c.toNat < b.toNat
          · rw [if_pos hcb] at h2
            cases h2
          · rw [if_neg hcb] at h2
            rw [if_neg (by omega : ¬ c.toNat < a.toNat)]
            by_cases hab : a.toNat < b.toNat
            · rw [if_pos (by omega : a.toNat < c.toNat)]
            · rw [if_neg hab] at h1
              by_cases hbc : b.toNat < c.toNat
              · rw [if_pos (by omega : a.toNat < c.toNat)]
              · rw [if_neg hbc] at h2
                rw [if_neg (by omega : ¬ a.toNat < c.toNat)]
                exact ih bs cs h1 h2

theorem strLt_irrefl (a : String) : strLt a a = false :=
  charListLt_irrefl a.data

theorem strLt_asymm (a b : String) (h : strLt a b = true) :
    strLt b a = false :=
  charListLt_asymm a.data b.data h

theorem strLe_trans (x y z : String) (h1 : strLt y x = false)
    (h2 : strLt z y = false) : strLt z x = false :=
  charListLe_trans x.data y.data z.data h1 h2

theorem listMaxStr_acc :
    ∀ (l : List String) (a : String),
      ∃ m, l.foldl maxStep (some a) = some m ∧
        (m = a ∨ m ∈ l) ∧ strLt m a = false ∧ ∀ s ∈ l, strLt m s = false := by
  intro l
  induction l with
  | nil =>
    intro a
    exact ⟨a, rfl, Or.inl rfl, strLt_irrefl a, by simp⟩
  | cons s t ih =>
    intro a
    by_cases h : strLt a s = true
    · obtain ⟨m, hm, hmem, hle, hall⟩ := ih s
      refine ⟨m, ?_, ?_, ?_, ?_⟩
      · rw [List.foldl_cons]
        have hstep : maxStep (some a) s = some s := by
          simp only [maxStep]
          rw [if_pos h]
        rw [hstep]
        exact hm
      · rcases hmem with rfl | hmem
        · exact Or.inr (by simp)
        · exact Or.inr (by simp [hmem])
      · exact strLe_trans a s m (strLt_asymm a s h) hle
      · intro x hx
        rcases List.mem_cons.mp hx with rfl | hx
        · exact hle
        · exact hall x hx
    · obtain ⟨m, hm, hmem, hle, hall⟩ := ih a
      have hsa : strLt a s = false := by
        simpa using h
      refine ⟨m, ?_, ?_, ?_, ?_⟩
      · rw [List.foldl_cons]
        have hstep : maxStep (some a) s = some a := by
          simp only [maxStep]
          rw [if_neg (by simp [hsa])]
        rw [hstep]
        exact hm
      · rcases hmem with rfl | hmem
        · exact Or.inl rfl
        · exact Or.inr (by simp [hmem])
      · exact hle
      · intro x hx
        rcases List.mem_cons.mp hx with rfl | hx
        · exact strLe_trans x a m hsa hle
        · exact hall x hx

/-- `listMaxStr` is `none` only on the empty list, and any result is the
maximum element. -/
theorem listMaxStr_spec (l : List String) :
    (listMaxStr l = none → l = []) ∧
    (∀ m, listMaxStr l = some m → m ∈ l ∧ ∀ s ∈ l, strLt m s = false) := by
  cases l with
  | nil =>
    exact ⟨fun _ => rfl, fun m hm => by simp [listMaxStr] at hm⟩
  | cons s t =>
    obtain ⟨m', hm', hmem, hle, hall⟩ := listMaxStr_acc t s
    have hfold : listMaxStr (s :: t) = some m' := by
      rw [listMaxStr, List.foldl_cons]
      simpa [maxStep] using hm'
    constructor
    · intro h
      rw [hfold] at h
      cases h
    · intro m hm
      rw [hfold] at hm
      injection hm with hmm
      subst hmm
      refine ⟨?_, ?_⟩
      · rcases hmem with rfl | hmem
        · simp
        · simp [hmem]
      · intro x hx
        rcases List.mem_cons.mp hx with rfl | hx
        · exact hle
        · exact hall x hx

/-- Exhausted attempts: once the (state-independent) candidate is taken,
every bounded retry returns nothing. -/
theorem genAttempts_of_taken (db : DB) (uid : Nat) (pfx : String)
    (h : billNumberTaken db (pfx ++ pad4 (nextSeqNum db uid pfx)) = true) :
    ∀ fuel, genAttempts db uid pfx fuel = none := by
  intro fuel
  induction fuel with
  | zero => rfl
  | succ k ih => simp [genAttempts, h, ih]

/-- The ten-attempt loop collapses: the candidate is independent of the
attempt number, so the loop yields the candidate when it is globally free
and nothing otherwise. -/
theorem genAttempts_collapse (db : DB) (uid : Nat) (pfx : String)
    (fuel : Nat) (hf : 0 < fuel) :
    genAttempts db uid pfx fuel
      = if billNumberTaken db (pfx ++ pad4 (nextSeqNum db uid pfx))
        then none
        else some (pfx ++ pad4 (nextSeqNum db uid pfx)) := by
  match fuel, hf with
  | k + 1, _ =>
    by_cases h : billNumberTaken db (pfx ++ pad4 (nextSeqNum db uid pfx))
        = true
    · simp [genAttempts, h, genAttempts_of_taken db uid pfx h k]
    · simp [genAttempts, h]

/-- C4: bill-number generation scans the caller's bills for the greatest
`BILL-YYYYMMDD-` number (conjuncts 1-2: the scan really returns the
maximum, or nothing when no such bill exists), derives the zero-padded
candidate `parsed+1`-or-`1`, probes it for GLOBAL uniqueness through up to
ten attempts — all of which see the same state, so the loop yields the
candidate iff it is free — falls back to the timestamp number
`BILL-YYYYMMDD-HHMMSSfff` on exhaustion, and on a uniqueness violation at
commit regenerates from a fresh timestamp and retries exactly once before
surfacing failure (conjuncts 3-6). -/
theorem create_bill_spec :
    (∀ (db : DB) (uid : Nat) (pfx : String),
        lastBillNumber db uid pfx = none →
        ∀ b ∈ db.bills, b.userId = uid →
          strIsPrefix pfx b.billNumber = false) ∧
    (∀ (db : DB) (uid : Nat) (pfx : String) (m : String),
        lastBillNumber db uid pfx = some m →
        (∃ b ∈ db.bills, b.userId = uid ∧ strIsPrefix pfx b.billNumber = true
            ∧ b.billNumber = m) ∧
        ∀ b ∈ db.bills, b.userId = uid → strIsPrefix pfx b.billNumber = true →
          strLt m b.billNumber = false) ∧
    (∀ (db : DB) (uid : Nat) (date ts ts2 : String),
        billNumberTaken db
            (dayBillPfx date ++ pad4 (nextSeqNum db uid (dayBillPfx date)))
          = false →
        create_bill db uid date ts ts2
          = (.ok (freshBillId db)
                (dayBillPfx date ++ pad4 (nextSeqNum db uid (dayBillPfx date))),
              { db with bills := db.bills ++
                [{ id := freshBillId db, billNumber := dayBillPfx date ++ pad4 (nextSeqNum db uid (dayBillPfx date)), status := "DRAFT", subtotal := 0, taxAmount := 0, discountAmount := 0, totalAmount := 0, amountPaid := 0, paymentMethod := none, userId := uid }] })) ∧
    (∀ (db : DB) (uid : Nat) (date ts ts2 : String),
        billNumberTaken db
            (dayBillPfx date ++ pad4 (nextSeqNum db uid (dayBillPfx date)))
          = true →
        billNumberTaken db (dayBillPfx date ++ ts) = false →
        create_bill db uid date ts ts2
          = (.ok (freshBillId db) (dayBillPfx date ++ ts),
              { db with bills := db.bills ++
                [{ id := freshBillId db, billNumber := dayBillPfx date ++ ts, status := "DRAFT", subtotal := 0, taxAmount := 0, discountAmount := 0, totalAmount := 0, amountPaid := 0, paymentMethod := none, userId := uid }] })) ∧
    (∀ (db : DB) (uid : Nat) (date ts ts2 : String),
        billNumberTaken db
            (dayBillPfx date ++ pad4 (nextSeqNum db uid (dayBillPfx date)))
          = true →
        billNumberTaken db (dayBillPfx date ++ ts) = true →
        billNumberTaken db (dayBillPfx date ++ ts2) = false →
        create_bill db uid date ts ts2
          = (.ok (freshBillId db) (dayBillPfx date ++ ts2),
              { db with bills := db.bills ++
                [{ id := freshBillId db, billNumber := dayBillPfx date ++ ts2, status := "DRAFT", subtotal := 0, taxAmount := 0, discountAmount := 0, totalAmount := 0, amountPaid := 0, paymentMethod := none, userId := uid }] })) ∧
    (∀ (db : DB) (uid : Nat) (date ts ts2 : String),
        billNumberTaken db
            (dayBillPfx date ++ pad4 (nextSeqNum db uid (dayBillPfx date)))
          = true →
        billNumberTaken db (dayBillPfx date ++ ts) = true →
        billNumberTaken db (dayBillPfx date ++ ts2) = true →
        create_bill db uid date ts ts2 = (.err, db)) := by
  refine ⟨?_, ?_, ?_, ?_, ?_, ?_⟩
  · intro db uid pfx hnone b hb hu
    have hnil := (listMaxStr_spec _).1 (by simpa [lastBillNumber] using hnone)
    rw [List.map_eq_nil_iff] at hnil
    have := List.filter_eq_nil_iff.mp hnil b hb
    by_contra hpf
    refine this ?_
    simp only [Bool.and_eq_true, beq_iff_eq]
    exact ⟨hu, by simpa using hpf⟩
  · intro db uid pfx m hsome
    obtain ⟨hmem, hmax⟩ := (listMaxStr_spec _).2 m
      (by simpa [lastBillNumber] using hsome)
    constructor
    · rw [List.mem_map] at hmem
      obtain ⟨b, hbf, hbn⟩ := hmem
      have hbp := List.mem_filter.mp hbf
      have hpred := hbp.2
      simp only [Bool.and_eq_true, beq_iff_eq] at hpred
      exact ⟨b, hbp.1, hpred.1, hpred.2, hbn⟩
    · intro b hb hu hpf
      refine hmax b.billNumber ?_
      rw [List.mem_map]
      refine ⟨b, List.mem_filter.mpr ⟨hb, ?_⟩, rfl⟩
      simp [hu, hpf]
  · intro db uid date ts ts2 hfree
    simp only [create_bill]
    rw [genAttempts_collapse db uid (dayBillPfx date) 10 (by norm_num)]
    simp only [hfree, Bool.false_eq_true, if_false]
  · intro db uid date ts ts2 htaken hts
    simp only [create_bill]
    rw [genAttempts_collapse db uid (dayBillPfx date) 10 (by norm_num)]
    simp only [htaken, if_true, hts, Bool.false_eq_true, if_false]
  · intro db uid date ts ts2 htaken hts hts2
    simp only [create_bill]
    rw [genAttempts_collapse db uid (dayBillPfx date) 10 (by norm_num)]
    simp only [htaken, if_true, hts, hts2, Bool.false_eq_true, if_false]
  · intro db uid date ts ts2 htaken hts hts2
    simp only [create_bill]
    rw [genAttempts_collapse db uid (dayBillPfx date) 10 (by norm_num)]
    simp only [htaken, if_true, hts, hts2]

/-- Witness for `create_bill_spec` at the fixture database (bills
`BILL-20251012-0001` … `-0004`, all user 1): the owner scan returns
`-0004` and dominates bill 2's number; user 1 gets the fresh `-0005`;
user 2's candidate `-0001` collides so the timestamp fallback is used;
a taken fallback forces the single commit retry; and with every number
taken the call surfaces failure. -/
theorem create_bill_spec_witness :
    (strLt "BILL-20251012-0004" Fixture.completedBill.billNumber = false) ∧
    (create_bill Fixture.db 1 "20251012" "120000123" "120000456"
      = (.ok (freshBillId Fixture.db)
            (dayBillPfx "20251012" ++ pad4 (nextSeqNum Fixture.db 1 (dayBillPfx "20251012"))),
          { Fixture.db with bills := Fixture.db.bills ++
            [{ id := freshBillId Fixture.db, billNumber := dayBillPfx "20251012" ++ pad4 (nextSeqNum Fixture.db 1 (dayBillPfx "20251012")), status := "DRAFT", subtotal := 0, taxAmount := 0, discountAmount := 0, totalAmount := 0, amountPaid := 0, paymentMethod := none, userId := 1 }] })) ∧
    (create_bill Fixture.db 2 "20251012" "120000123" "120000456"
      = (.ok (freshBillId Fixture.db) (dayBillPfx "20251012" ++ "120000123"),
          { Fixture.db with bills := Fixture.db.bills ++
            [{ id := freshBillId Fixture.db, billNumber := dayBillPfx "20251012" ++ "120000123", status := "DRAFT", subtotal := 0, taxAmount := 0, discountAmount := 0, totalAmount := 0, amountPaid := 0, paymentMethod := none, userId := 2 }] })) ∧
    (create_bill Fixture.db 2 "20251012" "0002" "120000456"
      = (.ok (freshBillId Fixture.db) (dayBillPfx "20251012" ++ "120000456"),
          { Fixture.db with bills := Fixture.db.bills ++
            [{ id := freshBillId Fixture.db, billNumber := dayBillPfx "20251012" ++ "120000456", status := "DRAFT", subtotal := 0, taxAmount := 0, discountAmount := 0, totalAmount := 0, amountPaid := 0, paymentMethod := none, userId := 2 }] })) ∧
    (create_bill Fixture.db 2 "20251012" "0002" "0003" = (.err, Fixture.db)) := by
  obtain ⟨h1, h2, h3, h4, h5, h6⟩ := create_bill_spec
  refine ⟨?_, ?_, ?_, ?_, ?_⟩
  · exact ((h2 Fixture.db 1 "BILL-20251012-" "BILL-20251012-0004"
      (by decide)).2 Fixture.completedBill (by decide) rfl (by decide))
  · exact h3 Fixture.db 1 "20251012" "120000123" "120000456" (by decide)
  · exact h4 Fixture.db 2 "20251012" "120000123" "120000456" (by decide)
      (by decide)
  · exact h5 Fixture.db 2 "20251012" "0002" "120000456" (by decide)
      (by decide) (by decide)
  · exact h6 Fixture.db 2 "20251012" "0002" "0003" (by decide) (by decide)
      (by decide)

end ShopSaarthi
